import Mathlib

/-!
Verification development for the book-generator core of this repository:
the configuration validator (`src/ConfigValidator.js`), the template
rendering engine (`src/TemplateEngine.js`) and the navigation builder
(`BookGenerator.generateNavigationData` / `generateDefaultNavigationOrder`).

The JavaScript code is embedded shallowly:

* JS values are the inductive `Value` (numbers restricted to integers;
  every value appearing in the claims is an integer, string, boolean,
  array or plain object).
* Fallible JS code (code that can `throw`) returns `Except String`.
* The regex-replacement passes of `renderTemplate` are transcribed as
  fuel-indexed scanners over `List Char`; each pass scans its input left
  to right, replaces non-overlapping matches and never re-scans the
  replacement text inside the same pass, exactly like a global
  `String.replace` in JS.  Every recursive call consumes at least one
  character, so fuel `length + 1` is never exhausted.
-/

set_option maxRecDepth 20000

namespace SMBook

/-- JS runtime values as used by the generator (numbers restricted to
integers, which covers every value the configs and templates use). -/
inductive Value where
  | undefined : Value
  | null : Value
  | bool : Bool → Value
  | num : Int → Value
  | str : String → Value
  | arr : List Value → Value
  | obj : List (String × Value) → Value

/-- JS truthiness: `undefined`, `null`, `false`, `0` and `""` are falsy,
everything else (including empty arrays and objects) is truthy. -/
def truthy : Value → Bool
  | .undefined => false
  | .null => false
  | .bool b => b
  | .num n => n != 0
  | .str s => s != ""
  | .arr _ => true
  | .obj _ => true

def Value.isStr : Value → Bool
  | .str _ => true
  | _ => false

def Value.isArr : Value → Bool
  | .arr _ => true
  | _ => false

/-- First-match association lookup, the JS object property model
(real JS objects have unique keys, so first match is the match). -/
def fieldGet (fs : List (String × Value)) (k : String) : Value :=
  match fs with
  | [] => .undefined
  | (k', v) :: tl => if k' == k then v else fieldGet tl k

def digitsVal (cs : List Char) (acc : Nat) : Nat :=
  match cs with
  | [] => acc
  | c :: tl => digitsVal tl (acc * 10 + (c.toNat - '0'.toNat))

/-- Canonical array-index key: `"0"`, `"1"`, ... (JS array index property
names are canonical decimal strings without leading zeros). -/
def asIndex (s : String) : Option Nat :=
  match s.data with
  | [] => none
  | c :: tl =>
    if (c :: tl).all (fun d => decide ('0' ≤ d) && decide (d ≤ '9')) then
      if c == '0' && tl != [] then none else some (digitsVal (c :: tl) 0)
    else none

/-- JS property access `v[k]` for the property shapes the generator uses:
object fields; `length` and index access on arrays and strings; property
access on the other primitives yields `undefined`. -/
def jsGet (v : Value) (k : String) : Value :=
  match v with
  | .obj fs => fieldGet fs k
  | .arr l =>
    if k == "length" then .num l.length
    else
      match asIndex k with
      | some i => l.getD i .undefined
      | none => .undefined
  | .str s =>
    if k == "length" then .num s.length
    else
      match asIndex k with
      | some i =>
        match s.data[i]? with
        | some c => .str (String.mk [c])
        | none => .undefined
      | none => .undefined
  | _ => .undefined

/-- JS `in` operator on the shapes the validator uses. -/
def hasKey (v : Value) (k : String) : Bool :=
  match v with
  | .obj fs => fs.any (fun p => p.1 == k)
  | .arr l =>
    k == "length" ||
      (match asIndex k with
       | some i => decide (i < l.length)
       | none => false)
  | _ => false

mutual

/-- JS string coercion `String(v)`.  Arrays stringify as their elements
joined with `,` where `null`/`undefined` elements become empty strings;
plain objects stringify as `[object Object]`. -/
def jsToString : Value → String
  | .undefined => "undefined"
  | .null => "null"
  | .bool b => if b then "true" else "false"
  | .num n => toString n
  | .str s => s
  | .arr l => jsArrJoin l
  | .obj _ => "[object Object]"
termination_by structural v => v

/-- `Array.prototype.join(',')` with the `null`/`undefined` exception. -/
def jsArrJoin : List Value → String
  | [] => ""
  | [.undefined] => ""
  | [.null] => ""
  | [x] => jsToString x
  | .undefined :: y :: tl => "," ++ jsArrJoin (y :: tl)
  | .null :: y :: tl => "," ++ jsArrJoin (y :: tl)
  | x :: y :: tl => jsToString x ++ "," ++ jsArrJoin (y :: tl)
termination_by structural l => l

end

/-- `typeof v === 'object' && v` — the shape accepted by `validate` and by
the root check of `getValueByPath` (`!obj || typeof obj !== 'object'`). -/
def isObjectShaped : Value → Bool
  | .obj _ => true
  | .arr _ => true
  | _ => false

/-- The dotted-path walk of `TemplateEngine.getValueByPath`: the loop
checks for `null`/`undefined` before each property access. -/
def walkPath (cur : Value) (keys : List String) : Value :=
  match keys with
  | [] => cur
  | k :: tl =>
    match cur with
    | .null => .undefined
    | .undefined => .undefined
    | v => walkPath (jsGet v k) tl

/-- `s.split(sep)` on raw characters: every occurrence of the separator
splits, and the empty string yields a single empty segment, as in JS. -/
def splitAll (sep : Char) (cs : List Char) : List (List Char) :=
  match cs with
  | [] => [[]]
  | x :: xs =>
    match splitAll sep xs with
    | [] => [[x]]
    | h :: t => if x == sep then [] :: h :: t else (x :: h) :: t

/-- `TemplateEngine.getValueByPath(obj, path)`. -/
def getValueByPath (v : Value) (path : String) : Value :=
  if isObjectShaped v then walkPath v ((splitAll '.' path.data).map String.mk)
  else .undefined

/-! ## ConfigValidator -/

def inRange (lo hi c : Char) : Bool := decide (lo ≤ c) && decide (c ≤ hi)

def isDigitCh (c : Char) : Bool := inRange '0' '9' c

/-- Character class `[0-9a-zA-Z-]` of the semver prerelease and build
identifier grammar. -/
def isSemverIdCh (c : Char) : Bool :=
  isDigitCh c || inRange 'a' 'z' c || inRange 'A' 'Z' c || c == '-'

/-- `(0|[1-9]\d*)`: a numeric identifier without leading zeros. -/
def semverNumOk (cs : List Char) : Bool :=
  cs != [] && cs.all isDigitCh && !(cs.headD ' ' == '0' && cs.length != 1)

/-- `0|[1-9]\d*|\d*[a-zA-Z-][0-9a-zA-Z-]*`: a prerelease identifier is a
non-empty run over `[0-9a-zA-Z-]` which, when purely numeric, has no
leading zero. -/
def semverPreIdOk (cs : List Char) : Bool :=
  cs != [] && cs.all isSemverIdCh &&
    (!(cs.all isDigitCh) || semverNumOk cs)

/-- `[0-9a-zA-Z-]+`: a build identifier. -/
def semverBuildIdOk (cs : List Char) : Bool :=
  cs != [] && cs.all isSemverIdCh

/-- Split a character list at the first occurrence of `sep`, if any. -/
def splitFirst (sep : Char) (cs : List Char) : List Char × Option (List Char) :=
  match cs with
  | [] => ([], none)
  | x :: xs =>
    if x == sep then ([], some xs)
    else
      match splitFirst sep xs with
      | (before, rest) => (x :: before, rest)

/-- `ConfigValidator.isValidVersion`: the anchored semver regex
`^(0|[1-9]\d*)\.(0|[1-9]\d*)\.(0|[1-9]\d*)`
`(?:-((?:0|[1-9]\d*|\d*[a-zA-Z-][0-9a-zA-Z-]*)`
`(?:\.(?:0|[1-9]\d*|\d*[a-zA-Z-][0-9a-zA-Z-]*))*))?`
`(?:\+([0-9a-zA-Z-]+(?:\.[0-9a-zA-Z-]+)*))?$`.
`+` cannot occur in the core or prerelease grammar and `-` cannot occur in
the core grammar, so the string splits at the first `+` into main/build
and the main part splits at its first `-` into core/prerelease. -/
def isValidVersion (version : String) : Bool :=
  let (main, build) := splitFirst '+' version.data
  let (core, pre) := splitFirst '-' main
  (match splitAll '.' core with
   | [major, minor, patch] =>
     semverNumOk major && semverNumOk minor && semverNumOk patch
   | _ => false) &&
  (match pre with
   | none => true
   | some p => (splitAll '.' p).all semverPreIdOk) &&
  (match build with
   | none => true
   | some b => (splitAll '.' b).all semverBuildIdOk)

/-- The three required config fields, in source order. -/
def requiredFields : List String := ["title", "description", "author"]

/-- The fields `validateRequiredFields` reports: missing from the config
or present but falsy. -/
def missingRequired (config : Value) : List String :=
  requiredFields.filter (fun f => !(hasKey config f && truthy (jsGet config f)))

def joinComma : List String → String
  | [] => ""
  | [s] => s
  | s :: y :: tl => s ++ ", " ++ joinComma (y :: tl)

def requiredErrMsg (config : Value) : String :=
  "必須フィールドが不足しています: " ++ joinComma (missingRequired config)

/-- `ConfigValidator.validateRequiredFields`. -/
def validateRequiredFields (config : Value) : Except String Unit :=
  if (missingRequired config).length > 0 then .error (requiredErrMsg config)
  else .ok ()

def stringFields : List String := ["title", "description", "author", "version", "language"]

def checkStringFields (config : Value) : List String → Except String Unit
  | [] => .ok ()
  | f :: tl =>
    if truthy (jsGet config f) && !(jsGet config f).isStr then
      .error (f ++ " は文字列である必要があります")
    else checkStringFields config tl

/-- JS `.length` of a field already known to be a string. -/
def strFieldLen (v : Value) : Nat :=
  match v with
  | .str s => s.length
  | _ => 0

/-- Sequence two validator checks: the first raised error aborts. -/
def thenE {α : Type} (a : Except String Unit) (b : Except String α) : Except String α :=
  match a with
  | .error e => .error e
  | .ok _ => b

/-- `ConfigValidator.validateDataTypes`: string-type checks for the five
scalar fields in order, then the title/description length limits, then
the semver check (a truthy `version` reaching it is a string, because the
type loop already checked it). -/
def validateDataTypes (config : Value) : Except String Unit :=
  thenE (checkStringFields config stringFields)
    (if truthy (jsGet config "title") && strFieldLen (jsGet config "title") > 100 then
      .error "タイトルは100文字以内で入力してください"
    else if truthy (jsGet config "description") &&
        strFieldLen (jsGet config "description") > 500 then
      .error "説明は500文字以内で入力してください"
    else if truthy (jsGet config "version") &&
        !(match jsGet config "version" with
          | .str s => isValidVersion s
          | _ => false) then
      .error "バージョンは semantic versioning 形式で入力してください (例: 1.0.0)"
    else .ok ())

/-- Property access `item.id` etc. on a loop item: JS throws a
`TypeError` when the item is `null` or `undefined`. -/
def jsGetMember (v : Value) (k : String) : Except String Value :=
  match v with
  | .null => .error "TypeError"
  | .undefined => .error "TypeError"
  | v' => .ok (jsGet v' k)

/-- `^[a-z0-9-]+$` of `validateChapter` / `validateAppendix`. -/
def idFormatOk (s : String) : Bool :=
  s.data != [] && s.data.all (fun c => inRange 'a' 'z' c || isDigitCh c || c == '-')

/-- `ConfigValidator.validateChapter` (with its 1-based index and the
section label, which is 章 for chapters and 付録 for appendices). -/
def validateChapter (label : String) (chapter : Value) (index : Nat) : Except String Unit :=
  match jsGetMember chapter "id" with
  | .error e => .error e
  | .ok id =>
    if !truthy id then .error (label ++ " " ++ toString index ++ ": id が必要です")
    else
      match jsGetMember chapter "title" with
      | .error e => .error e
      | .ok title =>
        if !truthy title then
          .error (label ++ " " ++ toString index ++ ": title が必要です")
        else if !id.isStr then
          .error (label ++ " " ++ toString index ++ ": id は文字列である必要があります")
        else if !title.isStr then
          .error (label ++ " " ++ toString index ++ ": title は文字列である必要があります")
        else if !(idFormatOk (jsToString id)) then
          .error (label ++ " " ++ toString index ++ ": id は英小文字、数字、ハイフンのみ使用できます")
        else .ok ()

def validateChapterList (label : String) (items : List Value) (index : Nat) :
    Except String Unit :=
  match items with
  | [] => .ok ()
  | x :: tl => thenE (validateChapter label x index) (validateChapterList label tl (index + 1))

def validateSectionArray (label errMsg : String) (v : Value) : Except String Unit :=
  if truthy v then
    match v with
    | .arr items => validateChapterList label items 1
    | _ => .error errMsg
  else .ok ()

/-- `ConfigValidator.validateStructure`. -/
def validateStructure (config : Value) : Except String Unit :=
  if !truthy (jsGet config "structure") then .ok ()
  else
    thenE (validateSectionArray "章" "chapters は配列である必要があります"
        (jsGet (jsGet config "structure") "chapters"))
      (validateSectionArray "付録" "appendices は配列である必要があります"
        (jsGet (jsGet config "structure") "appendices"))

/-- Number of distinct values in a list under JS `SameValueZero`
(`new Set(l).size`). -/
def countDistinct (l : List Value) (beqV : Value → Value → Bool) : Nat :=
  match l with
  | [] => 0
  | x :: tl => (if tl.any (beqV x) then 0 else 1) + countDistinct tl beqV

mutual

/-- Structural equality on `Value`, the JS `SameValueZero` used by `Set`
restricted to the value shapes that can appear in a decoded config
(reference equality on arrays/objects is approximated structurally; a
decoded `navigation.order` holds only primitives, where the two agree
except for distinct identical arrays, which the validator would reject as
non-strings anyway). -/
def valueBeq : Value → Value → Bool
  | .undefined, .undefined => true
  | .null, .null => true
  | .bool a, .bool b => a == b
  | .num a, .num b => a == b
  | .str a, .str b => a == b
  | .arr a, .arr b => valueListBeq a b
  | .obj _, .obj _ => false
  | _, _ => false
termination_by structural v => v

def valueListBeq : List Value → List Value → Bool
  | [], [] => true
  | x :: xs, y :: ys => valueBeq x y && valueListBeq xs ys
  | _, _ => false
termination_by structural l => l

end

/-- `^[a-zA-Z0-9\-_/]+$` of `validateNavigation`. -/
def navPathFormatOk (s : String) : Bool :=
  s.data != [] &&
    s.data.all (fun c =>
      inRange 'a' 'z' c || inRange 'A' 'Z' c || isDigitCh c ||
        c == '-' || c == '_' || c == '/')

/-- `ConfigValidator.validateNavigation`. -/
def validateNavigation (config : Value) : Except String Unit :=
  if !truthy (jsGet config "navigation") then .ok ()
  else if !truthy (jsGet (jsGet config "navigation") "order") then .ok ()
  else
    match jsGet (jsGet config "navigation") "order" with
    | .arr l =>
      if countDistinct l valueBeq != l.length then
        .error "navigation.order に重複したパスが含まれています"
      else if (l.filter (fun p => !(truthy p && p.isStr))).length > 0 then
        .error "navigation.order に無効なパスが含まれています"
      else if (l.filter (fun p => !navPathFormatOk (jsToString p))).length > 0 then
        .error ("navigation.order に無効な形式のパスが含まれています: " ++
          joinComma ((l.filter (fun p => !navPathFormatOk (jsToString p))).map jsToString))
      else .ok ()
    | _ => .error "navigation.order は配列である必要があります"

/-- `ConfigValidator.validateRepository`; URL well-formedness (`new URL`)
is a platform primitive, passed in as a parameter and unused whenever
`repository.url` is absent. -/
def validateRepository (urlValid : String → Bool) (config : Value) : Except String Unit :=
  if !truthy (jsGet config "repository") then .ok ()
  else if truthy (jsGet (jsGet config "repository") "url") &&
      !(jsGet (jsGet config "repository") "url").isStr then
    .error "repository.url は文字列である必要があります"
  else if truthy (jsGet (jsGet config "repository") "url") &&
      !urlValid (jsToString (jsGet (jsGet config "repository") "url")) then
    .error "repository.url は有効なURL形式である必要があります"
  else if truthy (jsGet (jsGet config "repository") "branch") &&
      !(jsGet (jsGet config "repository") "branch").isStr then
    .error "repository.branch は文字列である必要があります"
  else .ok ()

/-- `ConfigValidator.validate`: the shape check followed by the five
field/structure checks in source order — required fields, data types,
structure, navigation, repository. -/
def validate (urlValid : String → Bool) (config : Value) : Except String Unit :=
  if !isObjectShaped config then .error "設定ファイルが正しくありません"
  else
    thenE (validateRequiredFields config)
      (thenE (validateDataTypes config)
        (thenE (validateStructure config)
          (thenE (validateNavigation config)
            (validateRepository urlValid config))))

/-! ## TemplateEngine: the four `renderTemplate` replacement passes -/

/-- Prefix test on raw character lists. -/
def leadsWith (p s : List Char) : Bool :=
  match p, s with
  | [], _ => true
  | _ :: _, [] => false
  | a :: ps, b :: ss => a == b && leadsWith ps ss

/-- First occurrence of `pat` in `s`: returns the text before the match
and the text after it. -/
def splitAtSub (pat : List Char) (s : List Char) : Option (List Char × List Char) :=
  match s with
  | [] => none
  | c :: cs =>
    if leadsWith pat (c :: cs) then some ([], (c :: cs).drop pat.length)
    else
      match splitAtSub pat cs with
      | some (a, b) => some (c :: a, b)
      | none => none

/-- First occurrence of `pat` in `s`, keeping the match: returns the text
before the match and the remainder starting at the match. -/
def findSub (pat : List Char) (s : List Char) : Option (List Char × List Char) :=
  match s with
  | [] => none
  | c :: cs =>
    if leadsWith pat (c :: cs) then some ([], c :: cs)
    else
      match findSub pat cs with
      | some (a, b) => some (c :: a, b)
      | none => none

/-- Whether `pat` occurs as a substring of `s`. -/
def hasSub (pat s : List Char) : Bool := (findSub pat s).isSome

/-- JS `\s` (the ASCII members, which are the only ones templates use). -/
def isJsWs (c : Char) : Bool :=
  c == ' ' || c == '\t' || c == '\n' || c == '\r' || c == '\x0b' || c == '\x0c'

def trimWs (cs : List Char) : List Char :=
  ((cs.dropWhile isJsWs).reverse.dropWhile isJsWs).reverse

/-- Match `\{\{#<tag>\s+([^}]+)\}\}([\s\S]*?)\{\{/<tag>\}\}` at the head of
`cs`, for `tag` = `if` or `each`: the open literal, at least one
whitespace character, a non-empty run of non-`}` characters (trimmed to
give the condition/path), the literal `}}`, then the shortest body up to
the closing literal.  Returns `(argument, body, rest-after-close)`. -/
def tryBlock (openTag closeTag : List Char) (cs : List Char) :
    Option (String × List Char × List Char) :=
  if leadsWith openTag cs then
    let afterTag := cs.drop openTag.length
    let w := afterTag.takeWhile (fun c => c != '}')
    if decide (2 ≤ w.length) && isJsWs (w.headD ' ') then
      let afterArg := afterTag.drop w.length
      if leadsWith ['}', '}'] afterArg then
        match splitAtSub closeTag (afterArg.drop 2) with
        | some (body, rest) => some (String.mk (trimWs w), body, rest)
        | none => none
      else none
    else none
  else none

def ifOpen : List Char := ['{', '{', '#', 'i', 'f']
def ifClose : List Char := ['{', '{', '/', 'i', 'f', '}', '}']
def eachOpen : List Char := ['{', '{', '#', 'e', 'a', 'c', 'h']
def eachClose : List Char := ['{', '{', '/', 'e', 'a', 'c', 'h', '}', '}']
def elseLit : List Char := ['{', '{', 'e', 'l', 's', 'e', '}', '}']
def indexLit : List Char := ['{', '{', '@', 'i', 'n', 'd', 'e', 'x', '}', '}']

/-- Pass 1, `result.replace(/\{\{#if\s+([^}]+)\}\}([\s\S]*?)\{\{\/if\}\}/g, ...)`:
a truthy condition keeps the raw block body, a falsy one deletes the
whole block; the replacement text is not re-scanned by this pass. -/
def ifPass (data : Value) : Nat → List Char → List Char
  | 0, cs => cs
  | _ + 1, [] => []
  | fuel + 1, c :: cs =>
    match tryBlock ifOpen ifClose (c :: cs) with
    | some (cond, body, rest) =>
      (if truthy (getValueByPath data cond) then body else []) ++ ifPass data fuel rest
    | none => c :: ifPass data fuel cs

/-- `itemContent.replace(/\{\{@index\}\}/g, index + 1)`. -/
def indexReplace (repl : List Char) : Nat → List Char → List Char
  | 0, cs => cs
  | _ + 1, [] => []
  | fuel + 1, c :: cs =>
    if leadsWith indexLit (c :: cs) then
      repl ++ indexReplace repl fuel ((c :: cs).drop indexLit.length)
    else c :: indexReplace repl fuel cs

/-- Match `\{\{([^}@]+)\}\}` at the head of `cs` (the element-property
pattern inside an `each` body). -/
def tryProp (cs : List Char) : Option (String × List Char) :=
  if leadsWith ['{', '{'] cs then
    let w := (cs.drop 2).takeWhile (fun c => c != '}' && c != '@')
    if w.length != 0 && leadsWith ['}', '}'] ((cs.drop 2).drop w.length) then
      some (String.mk w, (cs.drop 2).drop (w.length + 2))
    else none
  else none

/-- `itemContent.replace(/\{\{([^}@]+)\}\}/g, ...)`: `this` yields the
element itself (string-coerced by `replace`), any other key resolves
against the element with falsy results collapsing to the empty string. -/
def propReplace (item : Value) : Nat → List Char → List Char
  | 0, cs => cs
  | _ + 1, [] => []
  | fuel + 1, c :: cs =>
    match tryProp (c :: cs) with
    | some (key, rest) =>
      (if String.mk (trimWs key.data) == "this" then (jsToString item).data
       else
         (if truthy (getValueByPath item (String.mk (trimWs key.data))) then
            jsToString (getValueByPath item (String.mk (trimWs key.data)))
          else "").data) ++ propReplace item fuel rest
    | none => c :: propReplace item fuel cs

/-- One element of an `each` body: `@index` becomes `index + 1`, then the
element-property pass runs. -/
def renderEachItem (body : List Char) (index : Nat) (item : Value) : List Char :=
  let withIndex := indexReplace (toString (index + 1)).data (body.length + 1) body
  propReplace item (withIndex.length + 1) withIndex

def renderEachList (body : List Char) (items : List Value) (index : Nat) : List Char :=
  match items with
  | [] => []
  | x :: tl => renderEachItem body index x ++ renderEachList body tl (index + 1)

/-- The replacement for one matched `each` block: a non-array lookup
renders as the empty string. -/
def eachSubst (data : Value) (path : String) (body : List Char) : List Char :=
  match getValueByPath data path with
  | .arr items => renderEachList body items 0
  | _ => []

/-- Pass 2, `result.replace(/\{\{#each\s+([^}]+)\}\}([\s\S]*?)\{\{\/each\}\}/g, ...)`. -/
def eachPass (data : Value) : Nat → List Char → List Char
  | 0, cs => cs
  | _ + 1, [] => []
  | fuel + 1, c :: cs =>
    match tryBlock eachOpen eachClose (c :: cs) with
    | some (path, body, rest) => eachSubst data path body ++ eachPass data fuel rest
    | none => c :: eachPass data fuel cs

/-- Match `\{\{else\}\}([\s\S]*?)(?=\{\{\/)` at the head of `cs`: the
shortest content after the `{{else}}` literal such that the remainder
starts with `{{/`; the lookahead is not consumed. -/
def tryElse (cs : List Char) : Option (List Char × List Char) :=
  if leadsWith elseLit cs then
    match findSub ['{', '{', '/'] (cs.drop elseLit.length) with
    | some (content, rest) => some (content, rest)
    | none => none
  else none

/-- Pass 3, `result.replace(/\{\{else\}\}([\s\S]*?)(?=\{\{\/)/g, ...)`:
the callback returns the captured content, so a match merely deletes the
`{{else}}` literal. -/
def elsePass : Nat → List Char → List Char
  | 0, cs => cs
  | _ + 1, [] => []
  | fuel + 1, c :: cs =>
    match tryElse (c :: cs) with
    | some (content, rest) => content ++ elsePass fuel rest
    | none => c :: elsePass fuel cs

/-- Match `\{\{([^}#/@]+)\}\}` at the head of `cs` (the plain variable
pattern). -/
def tryVar (cs : List Char) : Option (String × List Char) :=
  if leadsWith ['{', '{'] cs then
    let w := (cs.drop 2).takeWhile
      (fun c => c != '}' && c != '#' && c != '/' && c != '@')
    if w.length != 0 && leadsWith ['}', '}'] ((cs.drop 2).drop w.length) then
      some (String.mk w, (cs.drop 2).drop (w.length + 2))
    else none
  else none

/-- The replacement for one variable: `getValueByPath(data, key.trim()) || ''`,
string-coerced by `replace`. -/
def varSubst (data : Value) (key : String) : List Char :=
  if truthy (getValueByPath data (String.mk (trimWs key.data))) then
    (jsToString (getValueByPath data (String.mk (trimWs key.data)))).data
  else []

/-- Pass 4, `result.replace(/\{\{([^}#\/@]+)\}\}/g, ...)`. -/
def varPass (data : Value) : Nat → List Char → List Char
  | 0, cs => cs
  | _ + 1, [] => []
  | fuel + 1, c :: cs =>
    match tryVar (c :: cs) with
    | some (key, rest) => varSubst data key ++ varPass data fuel rest
    | none => c :: varPass data fuel cs

/-- `TemplateEngine.renderTemplate`: the four passes in source order —
conditionals, iteration, else cleanup, variables. -/
def renderTemplate (template : String) (data : Value) : String :=
  let a := ifPass data (template.data.length + 1) template.data
  let b := eachPass data (a.length + 1) a
  let c := elsePass (b.length + 1) b
  String.mk (varPass data (c.length + 1) c)

/-! ## TemplateEngine: `preprocessData` and `render` -/

/-- JS object property write `o[k] = v`: overwrite the existing binding
in place, else append at the end (JS objects have unique keys, so
replacing the first match is the JS semantics). -/
def objSet : List (String × Value) → String → Value → List (String × Value)
  | [], k, v => [(k, v)]
  | (k0, v0) :: tl, k, v =>
    if k0 == k then (k, v) :: tl else (k0, v0) :: objSet tl k v

def enumFromN {α : Type} : Nat → List α → List (Nat × α)
  | _, [] => []
  | n, x :: tl => (n, x) :: enumFromN (n + 1) tl

/-- The own enumerable properties copied by the spread `{ ...data }`:
object fields, array and string index properties, nothing for the other
primitives and for `null`/`undefined`. -/
def dataSpread : Value → List (String × Value)
  | .obj fs => fs
  | .arr l => (enumFromN 0 l).map (fun p => (toString p.1, p.2))
  | .str s => (enumFromN 0 s.data).map (fun p => (toString p.1, Value.str (String.mk [p.2])))
  | _ => []

/-- `processed.k = processed.k || 'dflt'`. -/
def orDefault (fs : List (String × Value)) (k : String) (dflt : String) :
    List (String × Value) :=
  objSet fs k (if truthy (fieldGet fs k) then fieldGet fs k else .str dflt)

/-- Characters kept by the `packageName` slug regex
`[^a-z0-9぀-ゟ゠-ヿ一-龯]`. -/
def pkgKeepCh (c : Char) : Bool :=
  inRange 'a' 'z' c || isDigitCh c ||
    (decide (0x3040 ≤ c.toNat) && decide (c.toNat ≤ 0x309f)) ||
    (decide (0x30a0 ≤ c.toNat) && decide (c.toNat ≤ 0x30ff)) ||
    (decide (0x4e00 ≤ c.toNat) && decide (c.toNat ≤ 0x9faf))

/-- Collapse every run of hyphens to a single hyphen (the global
hyphen-plus replace of the slug derivation). -/
def collapseDashes : List Char → List Char
  | [] => []
  | [c] => [c]
  | c :: d :: tl =>
    if c == '-' && d == '-' then collapseDashes (d :: tl)
    else c :: collapseDashes (d :: tl)

def dropOneLeadingDash : List Char → List Char
  | '-' :: tl => tl
  | cs => cs

def dropOneTrailingDash (cs : List Char) : List Char :=
  match cs.reverse with
  | '-' :: tl => tl.reverse
  | _ => cs

/-- The `packageName` slug: lowercase, collapse characters outside the
kept classes to hyphens, collapse hyphen runs, strip the boundary hyphens
(`/^-|-$/g` removes one of each; after collapsing, runs are single). -/
def packageName (s : String) : String :=
  String.mk (dropOneTrailingDash (dropOneLeadingDash
    (collapseDashes ((s.data.map Char.toLower).map
      (fun c => if pkgKeepCh c then c else '-')))))

def githubLit : List Char :=
  ['g', 'i', 't', 'h', 'u', 'b', '.', 'c', 'o', 'm', '/']

/-- `match[2].replace(/\.git$/, '')`. -/
def stripGitSuffix (cs : List Char) : List Char :=
  match cs.reverse with
  | 't' :: 'i' :: 'g' :: '.' :: tl => tl.reverse
  | _ => cs

/-- Try `/github\.com\/([^/]+)\/([^/]+)/` at the head of `cs`. -/
def tryGithubAt (cs : List Char) : Option (String × String) :=
  if leadsWith githubLit cs then
    let r0 := cs.drop githubLit.length
    let o := r0.takeWhile (fun c => c != '/')
    if o.length != 0 then
      match r0.drop o.length with
      | '/' :: r1 =>
        let n := r1.takeWhile (fun c => c != '/')
        if n.length != 0 then some (String.mk o, String.mk (stripGitSuffix n))
        else none
      | _ => none
    else none
  else none

/-- `url.match(/github\.com\/([^/]+)\/([^/]+)/)`: first position at which
the pattern matches. -/
def githubScan : List Char → Option (String × String)
  | [] => none
  | c :: cs =>
    match tryGithubAt (c :: cs) with
    | some r => some r
    | none => githubScan cs

/-- The repository step of `preprocessData`: because the spread is
shallow, `processed.repository` aliases `data.repository`, so writing
`owner`/`name` is visible to the caller.  Returns the pair
`(processed, data-as-the-caller-now-sees-it)`. -/
def repoStep (data : Value) (fs5 : List (String × Value)) : Except String (Value × Value) :=
  match fieldGet fs5 "repository" with
  | .null => .ok (.obj fs5, data)
  | .undefined => .ok (.obj fs5, data)
  | r =>
    if truthy (jsGet r "url") then
      match jsGet r "url" with
      | .str u =>
        match githubScan u.data with
        | some ownerName =>
          match r, data with
          | .obj rfs, .obj dfs =>
            let r2 := Value.obj
              (objSet (objSet rfs "owner" (.str ownerName.1)) "name" (.str ownerName.2))
            .ok (.obj (objSet fs5 "repository" r2), .obj (objSet dfs "repository" r2))
          | _, _ => .ok (.obj fs5, data)
        | none => .ok (.obj fs5, data)
      | _ => .error "TypeError: processed.repository.url.match is not a function"
    else .ok (.obj fs5, data)

/-- `TemplateEngine.preprocessData`, with the generation-time
`new Date().toISOString().split('T')[0]` passed in as `clock`.  A truthy
non-string `title` or `repository.url` makes the JS throw a `TypeError`
(`.toLowerCase` / `.match` on a non-string). -/
def preprocessData (clock : String) (data : Value) : Except String (Value × Value) :=
  let fs4 := objSet (orDefault (orDefault (orDefault (dataSpread data)
    "version" "1.0.0") "language" "ja") "license" "MIT") "currentDate" (.str clock)
  if truthy (fieldGet fs4 "title") then
    match fieldGet fs4 "title" with
    | .str t => repoStep data (objSet fs4 "packageName" (.str (packageName t)))
    | _ => .error "TypeError: processed.title.toLowerCase is not a function"
  else repoStep data fs4

def lookupTemplate (templates : List (String × String)) (name : String) : Option String :=
  match templates with
  | [] => none
  | (n, t) :: tl => if n == name then some t else lookupTemplate tl name

/-- `TemplateEngine.render(templateName, data)` over a caller-supplied
registry: the result paired with the caller's `data` as it stands after
the call (`preprocessData` can mutate `data.repository` in place). -/
def render (clock : String) (templates : List (String × String)) (name : String)
    (data : Value) : Except String String × Value :=
  match lookupTemplate templates name with
  | none => (.error ("テンプレート \x22" ++ name ++ "\x22 が見つかりません"), data)
  | some tmpl =>
    match preprocessData clock data with
    | .error e => (.error e, data)
    | .ok pd => (.ok (renderTemplate tmpl pd.1), pd.2)

/-! ## BookGenerator: the navigation builder -/

/-- `path.replace(/^\//, '').replace(/\.html$/, '')`. -/
def cleanPath (s : String) : String :=
  let cs := match s.data with
    | '/' :: tl => tl
    | cs => cs
  match cs.reverse with
  | 'l' :: 'm' :: 't' :: 'h' :: '.' :: tl => String.mk tl.reverse
  | _ => String.mk cs

/-- One section list as iterated by `generateDefaultNavigationOrder`:
falsy sections contribute nothing; non-array truthy sections have no
`forEach` and throw. -/
def sectionPathsItems : List Value → Except String (List String)
  | [] => .ok []
  | item :: tl =>
    match item with
    | .null => .error "TypeError"
    | .undefined => .error "TypeError"
    | it =>
      if truthy (jsGet it "path") then
        match jsGet it "path" with
        | .str ps =>
          match sectionPathsItems tl with
          | .ok rest => .ok (cleanPath ps :: rest)
          | .error e => .error e
        | _ => .error "TypeError"
      else sectionPathsItems tl

def sectionPaths (v : Value) : Except String (List String) :=
  if truthy v then
    match v with
    | .arr items => sectionPathsItems items
    | _ => .error "TypeError"
  else .ok []

/-- `config.structure || {}`. -/
def structureOf (config : Value) : Value :=
  if truthy (jsGet config "structure") then jsGet config "structure" else Value.obj []

/-- `BookGenerator.generateDefaultNavigationOrder`: the four sections in
fixed priority. -/
def generateDefaultNavigationOrder (config : Value) : Except String (List String) :=
  match sectionPaths (jsGet (structureOf config) "introduction") with
  | .error e => .error e
  | .ok a =>
    match sectionPaths (jsGet (structureOf config) "chapters") with
    | .error e => .error e
    | .ok b =>
      match sectionPaths (jsGet (structureOf config) "conclusion") with
      | .error e => .error e
      | .ok c =>
        match sectionPaths (jsGet (structureOf config) "appendices") with
        | .error e => .error e
        | .ok d => .ok (a ++ b ++ c ++ d)

/-- One section list as spread by `getPageTitle`'s
`[...(structure.introduction || []), ...]`: arrays spread to their
elements, strings to their characters, other truthy values are not
iterable and throw. -/
def sectionItems (v : Value) : Except String (List Value) :=
  if truthy v then
    match v with
    | .arr items => .ok items
    | .str s => .ok (s.data.map (fun c => Value.str (String.mk [c])))
    | _ => .error "TypeError"
  else .ok []

/-- The search loop of `getPageTitle`: the first item with a truthy
`path` normalizing to `pagePath` yields `item.title || pagePath`. -/
def findTitleIn (pagePath : String) : List Value → Except String (Option Value)
  | [] => .ok none
  | item :: tl =>
    match item with
    | .null => .error "TypeError"
    | .undefined => .error "TypeError"
    | it =>
      if truthy (jsGet it "path") then
        match jsGet it "path" with
        | .str ps =>
          if cleanPath ps == pagePath then
            .ok (some (if truthy (jsGet it "title") then jsGet it "title"
              else .str pagePath))
          else findTitleIn pagePath tl
        | _ => .error "TypeError"
      else findTitleIn pagePath tl

def isWordCh (c : Char) : Bool :=
  inRange 'a' 'z' c || inRange 'A' 'Z' c || isDigitCh c || c == '_'

/-- `.replace(/\b\w/g, l => l.toUpperCase())`: uppercase every word
character at a word boundary. -/
def capitalizeWords (prevW : Bool) : List Char → List Char
  | [] => []
  | c :: tl =>
    (if isWordCh c && !prevW then c.toUpper else c) :: capitalizeWords (isWordCh c) tl

/-- The title fallback `pagePath.replace(/[-_/]/g, ' ').replace(/\b\w/g, …)`. -/
def humanizeKey (s : String) : String :=
  String.mk (capitalizeWords false
    (s.data.map (fun c => if c == '-' || c == '_' || c == '/' then ' ' else c)))

/-- `BookGenerator.getPageTitle`. -/
def getPageTitle (config : Value) (pagePath : String) : Except String Value :=
  match sectionItems (jsGet (structureOf config) "introduction") with
  | .error e => .error e
  | .ok a =>
    match sectionItems (jsGet (structureOf config) "chapters") with
    | .error e => .error e
    | .ok b =>
      match sectionItems (jsGet (structureOf config) "conclusion") with
      | .error e => .error e
      | .ok c =>
        match sectionItems (jsGet (structureOf config) "appendices") with
        | .error e => .error e
        | .ok d =>
          match findTitleIn pagePath (a ++ b ++ c ++ d) with
          | .error e => .error e
          | .ok (some t) => .ok t
          | .ok none => .ok (.str (humanizeKey pagePath))

/-- One entry of the navigation map. -/
structure NavEntry where
  previous : Option (String × Value)
  next : Option (String × Value)
  index : Nat
  total : Nat

/-- `prevPath ? {path: ..., title: ...} : null` — a missing neighbour or
a falsy (empty-string) page key yields `null`. -/
def navNeighbor (config : Value) (p : Option String) :
    Except String (Option (String × Value)) :=
  match p with
  | none => .ok none
  | some s =>
    if s == "" then .ok none
    else
      match getPageTitle config s with
      | .error e => .error e
      | .ok t => .ok (some ("/" ++ s ++ ".html", t))

/-- The entry built for position `i` of the order. -/
def navEntryAt (config : Value) (order : List String) (i : Nat) : Except String NavEntry :=
  match navNeighbor config (if 0 < i then order[i-1]? else none) with
  | .error e => .error e
  | .ok prev =>
    match navNeighbor config (if i + 1 < order.length then order[i+1]? else none) with
    | .error e => .error e
    | .ok nxt => .ok ⟨prev, nxt, i, order.length⟩

/-- JS object write keyed by page path (`navigationData[pagePath] = …`):
overwrite the existing binding in place, else append at the end. -/
def jsObjSet : List (String × NavEntry) → String → NavEntry →
    List (String × NavEntry)
  | [], k, v => [(k, v)]
  | (k0, v0) :: tl, k, v =>
    if k0 == k then (k, v) :: tl else (k0, v0) :: jsObjSet tl k v

/-- The `navigationOrder.forEach((pagePath, index) => …)` loop. -/
def buildNavGo (config : Value) (order : List String) :
    List (Nat × String) → List (String × NavEntry) →
      Except String (List (String × NavEntry))
  | [], acc => .ok acc
  | (i, k) :: tl, acc =>
    match navEntryAt config order i with
    | .error e => .error e
    | .ok e => buildNavGo config order tl (jsObjSet acc k e)

def buildNavigationData (config : Value) (order : List String) :
    Except String (List (String × NavEntry)) :=
  buildNavGo config order (enumFromN 0 order) []

def asStringList : List Value → Option (List String)
  | [] => some []
  | .str s :: tl => (asStringList tl).map (s :: ·)
  | _ :: _ => none

/-- The order selection of `generateNavigationData`: a truthy
`config.navigation?.order` is used as-is, otherwise the default order is
derived from the structure.  A truthy non-array order has no `forEach`
and throws; with two or more pages every element is some entry's
neighbour and a non-string element throws inside `getPageTitle`
(`pagePath.replace` on a non-string after the strict comparison with the
normalized section paths fails), so the embedding requires string
elements — every claim about an explicit order concerns a validated one,
which contains only strings. -/
def resolveNavigationOrder (config : Value) : Except String (List String) :=
  let ord := match jsGet config "navigation" with
    | .null => Value.undefined
    | .undefined => Value.undefined
    | v => jsGet v "order"
  if truthy ord then
    match ord with
    | .arr l =>
      match asStringList l with
      | some ss => .ok ss
      | none => .error "TypeError"
    | _ => .error "TypeError"
  else generateDefaultNavigationOrder config

/-- `BookGenerator.generateNavigationData` (its pure core: the map that
is serialized to `_data/navigation.json`). -/
def generateNavigationData (config : Value) : Except String (List (String × NavEntry)) :=
  match resolveNavigationOrder config with
  | .error e => .error e
  | .ok order => buildNavigationData config order

def lookupKey (m : List (String × NavEntry)) (k : String) : Option NavEntry :=
  match m with
  | [] => none
  | (k', v) :: tl => if k' == k then some v else lookupKey tl k

/-- Walk the `next` pointers from `k`, mapping a pointer path
`/key.html` back to its page key. -/
def walkNext (m : List (String × NavEntry)) : Nat → String → List String
  | 0, _ => []
  | fuel + 1, k =>
    k :: (match lookupKey m k with
      | some e =>
        match e.next with
        | some pt => walkNext m fuel (cleanPath pt.1)
        | none => []
      | none => [])

/-! ## Claim inputs and statement vocabulary -/

/-- Substring containment, for `error message contains the field name`. -/
def strContains (s sub : String) : Prop :=
  ∃ p q : List Char, s.data = p ++ sub.data ++ q

/-- No opening brace: substituted text of this shape cannot be picked up
as directive syntax by the later passes. -/
def noBrace (s : String) : Bool :=
  s.data.all (fun c => c != '{')

/-- A truthy non-string `title` in the spread of `data`: `preprocessData`
calls `.toLowerCase()` on it and the JS throws. -/
def badTitle (data : Value) : Bool :=
  truthy (fieldGet (dataSpread data) "title") &&
    !(fieldGet (dataSpread data) "title").isStr

/-- A truthy non-string `repository.url` in the spread of `data`:
`preprocessData` calls `.match()` on it and the JS throws. -/
def badRepoUrl (data : Value) : Bool :=
  truthy (jsGet (fieldGet (dataSpread data) "repository") "url") &&
    !(jsGet (fieldGet (dataSpread data) "repository") "url").isStr

/-- The per-position entries of the `forEach` loop, as a plain list (the
loop itself builds them into a JS object; with pairwise-distinct keys the
two coincide — see `buildNavGo_fresh`). -/
def navEntriesSpec (config : Value) (order : List String) :
    List (Nat × String) → Except String (List (String × NavEntry))
  | [] => .ok []
  | (i, k) :: tl =>
    match navEntryAt config order i with
    | .error e => .error e
    | .ok e =>
      match navEntriesSpec config order tl with
      | .ok rest => .ok ((k, e) :: rest)
      | .error er => .error er

/-- The end-to-end config of the spec (with `path` fields). -/
def sampleConfig : Value :=
  .obj [("title", .str "T"), ("description", .str "D"), ("author", .str "A"),
    ("structure", .obj [("chapters", .arr [
      .obj [("id", .str "a"), ("title", .str "A"), ("path", .str "/a.html")],
      .obj [("id", .str "b"), ("title", .str "B"), ("path", .str "/b.html")]])])]

/-- A valid config whose two chapters share the page path `/a.html`. -/
def dupPathConfig : Value :=
  .obj [("title", .str "T"), ("description", .str "D"), ("author", .str "A"),
    ("structure", .obj [("chapters", .arr [
      .obj [("id", .str "c1"), ("title", .str "X"), ("path", .str "/a.html")],
      .obj [("id", .str "c2"), ("title", .str "Y"), ("path", .str "/a.html")]])])]

/-- A valid config whose first chapter path `/.html` normalizes to the
empty page key. -/
def emptyKeyConfig : Value :=
  .obj [("title", .str "T"), ("description", .str "D"), ("author", .str "A"),
    ("structure", .obj [("chapters", .arr [
      .obj [("id", .str "c1"), ("title", .str "X"), ("path", .str "/.html")],
      .obj [("id", .str "c2"), ("title", .str "Y"), ("path", .str "/a.html")]])])]

/-- A config violating both the navigation-order rules (duplicate entry)
and the repository rules (non-string `branch`). -/
def bothViolationsConfig : Value :=
  .obj [("title", .str "T"), ("description", .str "D"), ("author", .str "A"),
    ("navigation", .obj [("order", .arr [.str "a", .str "a"])]),
    ("repository", .obj [("branch", .num 1)])]

/-- Render data whose `repository.url` matches the github pattern. -/
def gitHubData : Value :=
  .obj [("repository", .obj [("url", .str "https://github.com/o/r")])]

/-! ## Helper lemmas -/

theorem strContains_of_append (pre s sub : String) (h : strContains s sub) :
    strContains (pre ++ s) sub := by
  obtain ⟨p, q, hd⟩ := h
  exact ⟨pre.data ++ p, q, by simp [String.data_append, hd, List.append_assoc]⟩

theorem strContains_joinComma (l : List String) (f : String) (hf : f ∈ l) :
    strContains (joinComma l) f := by
  induction l with
  | nil => cases hf
  | cons a tl ih =>
    cases tl with
    | nil =>
      rcases List.mem_singleton.mp hf with rfl
      exact ⟨[], [], by simp [joinComma]⟩
    | cons b tl2 =>
      rcases List.mem_cons.mp hf with rfl | hmem
      · exact ⟨[], (", " ++ joinComma (b :: tl2)).data, by
          simp [joinComma, String.data_append, List.append_assoc]⟩
      · obtain ⟨p, q, hd⟩ := ih hmem
        refine ⟨a.data ++ ", ".data ++ p, q, ?_⟩
        show (a ++ ", " ++ joinComma (b :: tl2)).data = _
        simp [String.data_append, hd, List.append_assoc]

theorem fieldGet_objSet_ne (fs : List (String × Value)) (k : String) (v : Value)
    (k' : String) (h : k ≠ k') :
    fieldGet (objSet fs k v) k' = fieldGet fs k' := by
  induction fs with
  | nil =>
    have h1 : (k == k') = false := by
      cases hb : k == k' with
      | true => exact absurd (eq_of_beq hb) h
      | false => rfl
    simp [objSet, fieldGet, h1]
  | cons hd tl ih =>
    obtain ⟨k0, v0⟩ := hd
    cases hbe : k0 == k with
    | true =>
      have hk0 : k0 = k := eq_of_beq hbe
      subst hk0
      have h1 : (k0 == k') = false := by
        cases hb : k0 == k' with
        | true => exact absurd (eq_of_beq hb) h
        | false => rfl
      simp [objSet, fieldGet, hbe, h1]
    | false =>
      cases hbe' : k0 == k' with
      | true => simp [objSet, fieldGet, hbe, hbe']
      | false => simp [objSet, fieldGet, hbe, hbe', ih]

/-- The four default-setting writes of `preprocessData` leave every
other binding untouched. -/
theorem fieldGet_preprocess_base (data : Value) (clock : String) (k : String)
    (h1 : "version" ≠ k) (h2 : "language" ≠ k) (h3 : "license" ≠ k)
    (h4 : "currentDate" ≠ k) :
    fieldGet (objSet (orDefault (orDefault (orDefault (dataSpread data)
        "version" "1.0.0") "language" "ja") "license" "MIT")
        "currentDate" (.str clock)) k = fieldGet (dataSpread data) k := by
  unfold orDefault
  rw [fieldGet_objSet_ne _ _ _ _ h4, fieldGet_objSet_ne _ _ _ _ h3,
    fieldGet_objSet_ne _ _ _ _ h2, fieldGet_objSet_ne _ _ _ _ h1]

theorem repoStep_no_repo (data : Value) (fs : List (String × Value))
    (h : fieldGet fs "repository" = Value.undefined) :
    repoStep data fs = .ok (.obj fs, data) := by
  simp [repoStep, h]

/-- Without a `repository` binding, `preprocessData` hands the caller's
`data` back unchanged. -/
theorem preprocessData_ok_snd (clock : String) (data : Value)
    (pd : Value × Value)
    (h : fieldGet (dataSpread data) "repository" = Value.undefined)
    (hok : preprocessData clock data = .ok pd) : pd.2 = data := by
  rw [preprocessData] at hok
  split at hok
  · split at hok
    · rw [repoStep_no_repo _ _ (by
        rw [fieldGet_objSet_ne _ _ _ _ (by decide),
          fieldGet_preprocess_base data clock "repository" (by decide) (by decide)
            (by decide) (by decide)]
        exact h)] at hok
      cases hok
      rfl
    · cases hok
  · rw [repoStep_no_repo _ _ (by
      rw [fieldGet_preprocess_base data clock "repository" (by decide) (by decide)
        (by decide) (by decide)]
      exact h)] at hok
    cases hok
    rfl

/-! ## Claim theorems -/

/-- C7: `isValidVersion` accepts exactly the semantic-versioning grammar
`MAJOR.MINOR.PATCH[-prerelease][+build]` with numeric parts free of
leading zeros; in particular `"1.0.0"`, `"1.0.0-alpha"` and
`"1.0.0+build.1"` are accepted while `"1.0"` and `"v1.0.0"` are not. -/
theorem C7_semver_examples :
    isValidVersion "1.0.0" = true ∧ isValidVersion "1.0" = false ∧
    isValidVersion "v1.0.0" = false ∧ isValidVersion "1.0.0-alpha" = true ∧
    isValidVersion "1.0.0+build.1" = true ∧
    isValidVersion "01.0.0" = false ∧ isValidVersion "1.0.0-01" = false := by
  decide

/-- C4: contrary to the claim, an `if`/`else` block is not replaced by the
chosen branch: with a truthy condition the output is both branches
concatenated (the `{{else}}` marker survives the if pass, its cleanup
lookahead `(?=\x7b\x7b/)` can never match because `\x7b\x7b/if\x7d\x7d`
was already consumed, and the variable pass later deletes the marker as
the unresolved variable `else`), and with a falsy condition the whole
block — else branch included — renders as the empty string. -/
theorem C4_else_branch_behavior :
    renderTemplate "\x7b\x7b#if x\x7d\x7dA\x7b\x7belse\x7d\x7dB\x7b\x7b/if\x7d\x7d"
        (Value.obj [("x", Value.str "1")]) = "AB" ∧
    renderTemplate "\x7b\x7b#if x\x7d\x7dA\x7b\x7belse\x7d\x7dB\x7b\x7b/if\x7d\x7d"
        (Value.obj []) = "" := by
  decide

/-- C3: the end-to-end example — the sample config validates for every
URL oracle, the derived default order is `["a", "b"]`, and the built
navigation map holds exactly the two claimed entries. -/
theorem C3_end_to_end (urlValid : String → Bool) :
    validate urlValid sampleConfig = .ok () ∧
    resolveNavigationOrder sampleConfig = .ok ["a", "b"] ∧
    generateNavigationData sampleConfig =
      .ok [("a", ⟨none, some ("/b.html", .str "B"), 0, 2⟩),
           ("b", ⟨some ("/a.html", .str "A"), none, 1, 2⟩)] :=
  ⟨rfl, rfl, rfl⟩

/-- C1 counterexample: a config whose flattened structure yields the
order `["a", "a"]` (length 2) builds a map with one entry, not two; and a
config whose order is `["", "a"]` (distinct keys) builds two entries that
both have `previous = null`, because the empty previous key is falsy. -/
theorem C1_counterexample :
    resolveNavigationOrder dupPathConfig = .ok ["a", "a"] ∧
    generateNavigationData dupPathConfig =
      .ok [("a", ⟨some ("/a.html", .str "X"), none, 1, 2⟩)] ∧
    resolveNavigationOrder emptyKeyConfig = .ok ["", "a"] ∧
    generateNavigationData emptyKeyConfig =
      .ok [("", ⟨none, some ("/a.html", .str "Y"), 0, 2⟩),
           ("a", ⟨none, none, 1, 2⟩)] :=
  ⟨rfl, rfl, rfl, rfl⟩

/-- C9 counterexample: a config violating both the repository rule
(non-string `branch`) and the navigation-order rule (duplicate entry)
makes `validate` raise the navigation error, not the repository error,
because the source runs `validateNavigation` before `validateRepository`. -/
theorem C9_counterexample :
    validateNavigation bothViolationsConfig =
      .error "navigation.order に重複したパスが含まれています" ∧
    validateRepository (fun _ => true) bothViolationsConfig =
      .error "repository.branch は文字列である必要があります" ∧
    validate (fun _ => true) bothViolationsConfig =
      .error "navigation.order に重複したパスが含まれています" ∧
    ("navigation.order に重複したパスが含まれています" : String) ≠
      "repository.branch は文字列である必要があります" :=
  ⟨rfl, rfl, rfl, by decide⟩

/-- C5 counterexample: when an element's value itself contains directive
syntax, the value is not inserted verbatim — the later variable pass
re-scans it, so the block does not render as the plain concatenation of
per-element bodies the claim describes. -/
theorem C5_counterexample :
    renderTemplate "\x7b\x7b#each items\x7d\x7d\x7b\x7bthis\x7d\x7d\x7b\x7b/each\x7d\x7d"
        (Value.obj [("items", Value.arr [Value.str "\x7b\x7bz\x7d\x7d"]),
          ("z", Value.str "Q")]) = "Q" ∧
    ("Q" : String) ≠ "\x7b\x7bz\x7d\x7d" := by
  decide

/-- C8 counterexample: `render` mutates the caller's data — after
rendering any registered template with a `repository.url` that matches
`github.com/<owner>/<name>`, the caller's nested `repository` object has
acquired `owner` and `name` fields. -/
theorem C8_counterexample :
    (render "2024-01-01" [("t", "hi")] "t" gitHubData).2 ≠ gitHubData := by
  intro h
  have h2 : Value.str "o" = Value.undefined :=
    congrArg (fun v => jsGet (jsGet v "repository") "owner") h
  exact Value.noConfusion h2

/-- C6 counterexample: a registered template still raises when
`data.repository.url` is truthy but not a string — `preprocessData` calls
`.match()` on it before rendering. -/
theorem C6_counterexample :
    lookupTemplate [("t", "hi")] "t" = some "hi" ∧
    (render "2024-01-01" [("t", "hi")] "t"
      (Value.obj [("repository", Value.obj [("url", Value.num 1)])])).1 =
      .error "TypeError: processed.repository.url.match is not a function" :=
  ⟨rfl, rfl⟩

/-- C2: whenever two or more of the required fields `title`,
`description`, `author` are missing or falsy in a config object,
`validate` raises exactly once with the aggregated message, and that
message contains the name of every missing required field. -/
theorem C2_required_fields_all_reported (urlValid : String → Bool)
    (fields : List (String × Value))
    (h : 2 ≤ (missingRequired (Value.obj fields)).length) :
    validate urlValid (Value.obj fields) = .error (requiredErrMsg (Value.obj fields)) ∧
    ∀ f ∈ missingRequired (Value.obj fields),
      strContains (requiredErrMsg (Value.obj fields)) f := by
  constructor
  · have hlen : 0 < (missingRequired (Value.obj fields)).length := by omega
    simp [validate, isObjectShaped, validateRequiredFields, hlen, thenE]
  · intro f hf
    exact strContains_of_append _ _ _ (strContains_joinComma _ _ hf)

/-- C2 witness: the empty config misses all three required fields and
`validate` reports all of them in one error. -/
theorem C2_required_fields_all_reported_witness :
    2 ≤ (missingRequired (Value.obj [])).length ∧
    (validate (fun _ => true) (Value.obj []) =
        .error (requiredErrMsg (Value.obj [])) ∧
      ∀ f ∈ missingRequired (Value.obj []),
        strContains (requiredErrMsg (Value.obj [])) f) :=
  ⟨by decide, C2_required_fields_all_reported (fun _ => true) [] (by decide)⟩

/-- C9 (amended): `validate` checks shape, required fields, data types,
structure, then navigation, then repository — so whenever the navigation
check fails on a config that passes the earlier steps, `validate` raises
the navigation error no matter what the repository check would say. -/
theorem C9_check_order (urlValid : String → Bool) (config : Value) (e : String)
    (h0 : isObjectShaped config = true)
    (h1 : validateRequiredFields config = .ok ())
    (h2 : validateDataTypes config = .ok ())
    (h3 : validateStructure config = .ok ())
    (h4 : validateNavigation config = .error e) :
    validate urlValid config = .error e := by
  simp [validate, h0, h1, h2, h3, h4, thenE]

/-- C9 witness: on the config violating both rules, `validate` raises the
navigation error. -/
theorem C9_check_order_witness :
    validate (fun _ => true) bothViolationsConfig =
      .error "navigation.order に重複したパスが含まれています" :=
  C9_check_order (fun _ => true) bothViolationsConfig _ rfl rfl rfl rfl rfl

/-- C10: a defined-but-falsy value reached by a plain variable directive
renders as the empty string, indistinguishable from an entirely absent
path, and element-property substitution inside an `each` body collapses
falsy values the same way. -/
theorem C10_falsy_collapse (v : Value) (h : truthy v = false) :
    renderTemplate "\x7b\x7bx\x7d\x7d" (Value.obj [("x", v)]) = "" ∧
    renderTemplate "\x7b\x7bx\x7d\x7d" (Value.obj []) = "" ∧
    renderTemplate "\x7b\x7b#each items\x7d\x7d[\x7b\x7bp\x7d\x7d]\x7b\x7b/each\x7d\x7d"
        (Value.obj [("items", Value.arr [Value.obj [("p", v)]])]) = "[]" := by
  cases v with
  | undefined => exact ⟨by decide, by decide, by decide⟩
  | null => exact ⟨by decide, by decide, by decide⟩
  | bool b =>
    cases b with
    | false => exact ⟨by decide, by decide, by decide⟩
    | true => simp [truthy] at h
  | num n =>
    have hn : n = 0 := by simpa [truthy] using h
    subst hn
    exact ⟨by decide, by decide, by decide⟩
  | str s =>
    have hs : s = "" := by simpa [truthy] using h
    subst hs
    exact ⟨by decide, by decide, by decide⟩
  | arr l => simp [truthy] at h
  | obj fs => simp [truthy] at h

/-- C10 witness at the falsy value `false`. -/
theorem C10_falsy_collapse_witness :
    truthy (Value.bool false) = false ∧
    (renderTemplate "\x7b\x7bx\x7d\x7d" (Value.obj [("x", Value.bool false)]) = "" ∧
      renderTemplate "\x7b\x7bx\x7d\x7d" (Value.obj []) = "" ∧
      renderTemplate "\x7b\x7b#each items\x7d\x7d[\x7b\x7bp\x7d\x7d]\x7b\x7b/each\x7d\x7d"
        (Value.obj [("items", Value.arr [Value.obj [("p", Value.bool false)]])]) = "[]") :=
  ⟨by decide, C10_falsy_collapse (Value.bool false) (by decide)⟩

/-- C8 (amended): `render` leaves the caller's data untouched whenever it
has no `repository` binding; with a github-style `repository.url` the
shared nested `repository` object acquires `owner` and `name`, exactly as
the shallow copy in `preprocessData` implies. -/
theorem C8_no_mutation_without_repository (clock : String)
    (templates : List (String × String)) (name : String) (data : Value)
    (h : fieldGet (dataSpread data) "repository" = Value.undefined) :
    (render clock templates name data).2 = data ∧
    (render clock [("t", "hi")] "t" gitHubData).2 =
      Value.obj [("repository", Value.obj [("url", Value.str "https://github.com/o/r"),
        ("owner", Value.str "o"), ("name", Value.str "r")])] := by
  constructor
  · cases hlt : lookupTemplate templates name with
    | none => simp [render, hlt]
    | some tmpl =>
      cases hpre : preprocessData clock data with
      | error e => simp [render, hlt, hpre]
      | ok pd => simp [render, hlt, hpre, preprocessData_ok_snd clock data pd h hpre]
  · rfl

/-- C8 witness at data without a repository field. -/
theorem C8_no_mutation_without_repository_witness :
    fieldGet (dataSpread (Value.obj [("title", Value.str "T")])) "repository" =
      Value.undefined ∧
    ((render "2024-01-01" [("t", "hi")] "t"
        (Value.obj [("title", Value.str "T")])).2 =
      Value.obj [("title", Value.str "T")] ∧
    (render "2024-01-01" [("t", "hi")] "t" gitHubData).2 =
      Value.obj [("repository", Value.obj [("url", Value.str "https://github.com/o/r"),
        ("owner", Value.str "o"), ("name", Value.str "r")])]) :=
  ⟨rfl, C8_no_mutation_without_repository "2024-01-01" [("t", "hi")] "t"
    (Value.obj [("title", Value.str "T")]) rfl⟩

/-- The error shape of `repoStep`: it throws exactly when the
`repository` binding carries a truthy non-string `url`. -/
theorem repoStep_isOk_false (data : Value) (fs : List (String × Value)) :
    ((repoStep data fs).isOk = false) ↔
      (truthy (jsGet (fieldGet fs "repository") "url") &&
        !(jsGet (fieldGet fs "repository") "url").isStr) = true := by
  have hstr : ∀ s : String, jsGet (Value.str s) "url" = Value.undefined := fun _ => rfl
  have harr : ∀ l : List Value, jsGet (Value.arr l) "url" = Value.undefined :=
    fun _ => rfl
  cases hr : fieldGet fs "repository" with
  | null => simp [repoStep, Except.isOk, Except.toBool, hr, jsGet, truthy]
  | undefined => simp [repoStep, Except.isOk, Except.toBool, hr, jsGet, truthy]
  | bool b => simp [repoStep, Except.isOk, Except.toBool, hr, jsGet, truthy]
  | num n => simp [repoStep, Except.isOk, Except.toBool, hr, jsGet, truthy]
  | str s => simp [repoStep, Except.isOk, Except.toBool, hr, hstr, truthy]
  | arr l => simp [repoStep, Except.isOk, Except.toBool, hr, harr, truthy]
  | obj rfs =>
    cases hu : truthy (jsGet (Value.obj rfs) "url") with
    | false => simp [repoStep, Except.isOk, Except.toBool, hr, hu]
    | true =>
      cases hv : jsGet (Value.obj rfs) "url" with
      | str u =>
        rw [hv] at hu
        cases hg : githubScan u.data with
        | some ownerName =>
          cases data with
          | obj dfs => simp [repoStep, Except.isOk, Except.toBool, hr, hu, hv, hg, Value.isStr]
          | undefined => simp [repoStep, Except.isOk, Except.toBool, hr, hu, hv, hg, Value.isStr]
          | null => simp [repoStep, Except.isOk, Except.toBool, hr, hu, hv, hg, Value.isStr]
          | bool b => simp [repoStep, Except.isOk, Except.toBool, hr, hu, hv, hg, Value.isStr]
          | num n => simp [repoStep, Except.isOk, Except.toBool, hr, hu, hv, hg, Value.isStr]
          | str s => simp [repoStep, Except.isOk, Except.toBool, hr, hu, hv, hg, Value.isStr]
          | arr l2 => simp [repoStep, Except.isOk, Except.toBool, hr, hu, hv, hg, Value.isStr]
        | none => simp [repoStep, Except.isOk, Except.toBool, hr, hu, hv, hg, Value.isStr]
      | undefined => rw [hv] at hu; simp [truthy] at hu
      | null => rw [hv] at hu; simp [truthy] at hu
      | bool b => rw [hv] at hu; simp [repoStep, Except.isOk, Except.toBool, hr, hv, hu, Value.isStr]
      | num n => rw [hv] at hu; simp [repoStep, Except.isOk, Except.toBool, hr, hv, hu, Value.isStr]
      | arr l2 => rw [hv] at hu; simp [repoStep, Except.isOk, Except.toBool, hr, hv, hu, Value.isStr]
      | obj fs2 => rw [hv] at hu; simp [repoStep, Except.isOk, Except.toBool, hr, hv, hu, Value.isStr]

/-- `preprocessData` throws exactly on a truthy non-string `title` or a
truthy non-string `repository.url`. -/
theorem preprocessData_isOk_false (clock : String) (data : Value) :
    ((preprocessData clock data).isOk = false) ↔
      (badTitle data = true ∨ badRepoUrl data = true) := by
  simp only [preprocessData]
  rw [fieldGet_preprocess_base data clock "title" (by decide) (by decide) (by decide)
    (by decide)]
  cases ht : truthy (fieldGet (dataSpread data) "title") with
  | false =>
    simp only [ht, Bool.false_eq_true, if_false]
    rw [repoStep_isOk_false]
    rw [fieldGet_preprocess_base data clock "repository" (by decide) (by decide)
      (by decide) (by decide)]
    simp [badTitle, badRepoUrl, ht]
  | true =>
    cases hv : fieldGet (dataSpread data) "title" with
    | undefined => rw [hv] at ht; simp [truthy] at ht
    | null => rw [hv] at ht; simp [truthy] at ht
    | str t =>
      simp only [ht, if_true, hv]
      rw [repoStep_isOk_false]
      rw [fieldGet_objSet_ne _ _ _ _ (by decide),
        fieldGet_preprocess_base data clock "repository" (by decide) (by decide)
          (by decide) (by decide)]
      simp [badTitle, badRepoUrl, ht, hv, Value.isStr]
    | bool b =>
      rw [hv] at ht
      simp [truthy] at ht
      simp [ht, hv, badTitle, Value.isStr, truthy, Except.isOk, Except.toBool]
    | num n =>
      rw [hv] at ht
      simp [truthy] at ht
      simp [ht, hv, badTitle, Value.isStr, truthy, Except.isOk, Except.toBool]
    | arr l =>
      simp [hv, badTitle, Value.isStr, truthy, Except.isOk, Except.toBool]
    | obj fs2 =>
      simp [hv, badTitle, Value.isStr, truthy, Except.isOk, Except.toBool]

set_option maxHeartbeats 1600000 in
/-- C6 (amended): `render` raises iff the template name is unregistered
or the data carries a truthy non-string `title` or `repository.url`; and
the unresolved-path example renders as the empty string for every clock,
with the caller's empty data returned untouched. -/
theorem C6_render_error_conditions (clock : String) (templates : List (String × String))
    (name : String) (data : Value) :
    (((render clock templates name data).1.isOk = false) ↔
      (lookupTemplate templates name = none ∨ badTitle data = true ∨
        badRepoUrl data = true)) ∧
    render clock [("t", "\x7b\x7bmissing.path\x7d\x7d")] "t" (Value.obj []) =
      (.ok "", Value.obj []) := by
  constructor
  · cases hlt : lookupTemplate templates name with
    | none => simp [render, hlt, Except.isOk, Except.toBool]
    | some tmpl =>
      cases hpre : preprocessData clock data with
      | error e =>
        have h2 : (preprocessData clock data).isOk = false := by
          rw [hpre]; rfl
        have h3 := (preprocessData_isOk_false clock data).mp h2
        simp [render, hlt, hpre, Except.isOk, Except.toBool, h3]
      | ok pd =>
        have h2 : ¬((preprocessData clock data).isOk = false) := by
          rw [hpre]; simp [Except.isOk, Except.toBool]
        have hb1 : badTitle data = false := by
          cases hbt : badTitle data with
          | true =>
            exact absurd ((preprocessData_isOk_false clock data).mpr (Or.inl hbt)) h2
          | false => rfl
        have hb2 : badRepoUrl data = false := by
          cases hbt : badRepoUrl data with
          | true =>
            exact absurd ((preprocessData_isOk_false clock data).mpr (Or.inr hbt)) h2
          | false => rfl
        simp [render, hlt, hpre, Except.isOk, Except.toBool, hb1, hb2]
  · exact rfl

theorem leadsWith_brace_false (rest : List Char) (c : Char) (tl : List Char)
    (hc : (c != '{') = true) : leadsWith ('{' :: rest) (c :: tl) = false := by
  have hne : c ≠ '{' := by simpa using hc
  cases hb : ('{' : Char) == c with
  | false => simp [leadsWith, hb]
  | true => exact absurd (eq_of_beq hb).symm hne

theorem elsePass_id (fuel : Nat) (cs : List Char)
    (h : cs.all (fun c => c != '{') = true) : elsePass fuel cs = cs := by
  induction fuel generalizing cs with
  | zero => rfl
  | succ f ih =>
    cases cs with
    | nil => rfl
    | cons c tl =>
      simp only [List.all_cons, Bool.and_eq_true] at h
      obtain ⟨hc, htl⟩ := h
      have htry : tryElse (c :: tl) = none := by
        unfold tryElse
        rw [show elseLit = '{' :: ['{', 'e', 'l', 's', 'e', '}', '}'] from rfl,
          leadsWith_brace_false _ _ _ hc]
        rfl
      simp [elsePass, htry, ih tl htl]

theorem varPass_id (data : Value) (fuel : Nat) (cs : List Char)
    (h : cs.all (fun c => c != '{') = true) : varPass data fuel cs = cs := by
  induction fuel generalizing cs with
  | zero => rfl
  | succ f ih =>
    cases cs with
    | nil => rfl
    | cons c tl =>
      simp only [List.all_cons, Bool.and_eq_true] at h
      obtain ⟨hc, htl⟩ := h
      have htry : tryVar (c :: tl) = none := by
        unfold tryVar
        rw [show (['{', '{'] : List Char) = '{' :: ['{'] from rfl,
          leadsWith_brace_false _ _ _ hc]
        rfl
      simp [varPass, htry, ih tl htl]

theorem leadsWith_append_self (pat rest : List Char) :
    leadsWith pat (pat ++ rest) = true := by
  induction pat with
  | nil => rfl
  | cons a ps ih => simp [leadsWith, ih]

theorem leadsWith_of_length_le (pat s t : List Char) (h : pat.length ≤ s.length) :
    leadsWith pat (s ++ t) = leadsWith pat s := by
  induction pat generalizing s with
  | nil => rfl
  | cons a ps ih =>
    cases s with
    | nil => simp at h
    | cons b ss =>
      show (a == b && leadsWith ps (ss ++ t)) = (a == b && leadsWith ps ss)
      rw [ih ss (Nat.le_of_succ_le_succ h)]

theorem leadsWith_extend (s pat t : List Char) (hlen : s.length < pat.length)
    (h : leadsWith pat (s ++ t) = true) :
    leadsWith (pat.drop s.length) t = true := by
  induction s generalizing pat with
  | nil => simpa using h
  | cons c ss ih =>
    cases pat with
    | nil => simp at hlen
    | cons p ps =>
      simp only [List.cons_append, leadsWith, Bool.and_eq_true] at h
      simpa using ih ps (Nat.lt_of_succ_lt_succ hlen) h.2

theorem hasSub_cons_false (pat : List Char) (c : Char) (cs : List Char)
    (h : hasSub pat (c :: cs) = false) :
    leadsWith pat (c :: cs) = false ∧ hasSub pat cs = false := by
  cases hl : leadsWith pat (c :: cs) with
  | true =>
    exfalso
    unfold hasSub findSub at h
    rw [hl] at h
    simp at h
  | false =>
    refine ⟨rfl, ?_⟩
    unfold hasSub findSub at h
    rw [hl] at h
    unfold hasSub
    cases hf : findSub pat cs with
    | none => rfl
    | some pr =>
      rw [hf] at h
      simp at h

theorem tryBlock_none_of_head (openTag closeTag cs : List Char)
    (h : leadsWith openTag cs = false) :
    tryBlock openTag closeTag cs = none := by
  simp [tryBlock, h]

theorem ifPass_id (data : Value) (fuel : Nat) (cs : List Char)
    (h : hasSub ifOpen cs = false) : ifPass data fuel cs = cs := by
  induction fuel generalizing cs with
  | zero => rfl
  | succ f ih =>
    cases cs with
    | nil => rfl
    | cons c tl =>
      obtain ⟨hlw, htl⟩ := hasSub_cons_false _ _ _ h
      simp [ifPass, tryBlock_none_of_head _ _ _ hlw, ih tl htl]

theorem splitAtSub_boundary (pat : List Char) (hpat : 0 < pat.length)
    (hso : ∀ k, k < pat.length → 0 < k → leadsWith (pat.drop k) pat = false)
    (body rest : List Char) (h : hasSub pat body = false) :
    splitAtSub pat (body ++ (pat ++ rest)) = some (body, rest) := by
  induction body with
  | nil =>
    cases pat with
    | nil => simp at hpat
    | cons p ps =>
      have h1 : leadsWith (p :: ps) (p :: (ps ++ rest)) = true :=
        leadsWith_append_self (p :: ps) rest
      have h2 : (p :: (ps ++ rest)).drop (p :: ps).length = rest :=
        List.drop_left (p :: ps) rest
      simp [splitAtSub, h1, h2]
  | cons c btl ih =>
    obtain ⟨hlw, htl⟩ := hasSub_cons_false _ _ _ h
    have hL : leadsWith pat (c :: (btl ++ (pat ++ rest))) = false := by
      by_cases hlen : pat.length ≤ (c :: btl).length
      · have heq := leadsWith_of_length_le pat (c :: btl) (pat ++ rest) hlen
        rw [show (c :: btl) ++ (pat ++ rest) = c :: (btl ++ (pat ++ rest))
          from rfl] at heq
        rw [heq, hlw]
      · push_neg at hlen
        cases hcon : leadsWith pat (c :: (btl ++ (pat ++ rest))) with
        | false => rfl
        | true =>
          exfalso
          have he := leadsWith_extend (c :: btl) pat (pat ++ rest) hlen hcon
          have hlen2 : (pat.drop (c :: btl).length).length ≤ pat.length := by
            simp [List.length_drop]
          rw [leadsWith_of_length_le _ _ _ hlen2] at he
          rw [hso (c :: btl).length hlen (by simp)] at he
          exact Bool.false_ne_true he
    simp [splitAtSub, hL, ih htl]

theorem dropWhile_of_all_not (p : Char → Bool) (cs : List Char)
    (h : cs.all (fun c => !p c) = true) : cs.dropWhile p = cs := by
  cases cs with
  | nil => rfl
  | cons c tl =>
    simp only [List.all_cons, Bool.and_eq_true] at h
    have hp : p c = false := by
      cases hc : p c
      · rfl
      · rw [hc] at h; simp at h
    simp [List.dropWhile_cons, hp]

theorem trimWs_space (cs : List Char)
    (h : cs.all (fun c => !isJsWs c) = true) : trimWs (' ' :: cs) = cs := by
  unfold trimWs
  rw [List.dropWhile_cons]
  rw [if_pos (show isJsWs ' ' = true from rfl)]
  rw [dropWhile_of_all_not _ _ h]
  rw [dropWhile_of_all_not _ _ (by simpa [List.all_reverse] using h)]
  exact List.reverse_reverse cs

theorem takeWhile_all_append (p : Char → Bool) (xs : List Char) (y : Char)
    (rest : List Char) (hx : xs.all p = true) (hy : p y = false) :
    (xs ++ y :: rest).takeWhile p = xs := by
  induction xs with
  | nil => simp [List.takeWhile_cons, hy]
  | cons c tl ih =>
    simp only [List.all_cons, Bool.and_eq_true] at hx
    simp [List.takeWhile_cons, hx.1, ih hx.2]

theorem propReplace_id (item : Value) (fuel : Nat) (cs : List Char)
    (h : cs.all (fun c => c != '{') = true) : propReplace item fuel cs = cs := by
  induction fuel generalizing cs with
  | zero => rfl
  | succ f ih =>
    cases cs with
    | nil => rfl
    | cons c tl =>
      simp only [List.all_cons, Bool.and_eq_true] at h
      obtain ⟨hc, htl⟩ := h
      have htry : tryProp (c :: tl) = none := by
        unfold tryProp
        rw [show (['{', '{'] : List Char) = '{' :: ['{'] from rfl,
          leadsWith_brace_false _ _ _ hc]
        rfl
      simp [propReplace, htry, ih tl htl]

theorem eachPass_nil (d : Value) (f : Nat) : eachPass d f [] = [] := by
  cases f <;> rfl

theorem eachPass_block (d : Value) (f : Nat) (c : Char) (cs : List Char)
    (path : String) (body rest : List Char)
    (h : tryBlock eachOpen eachClose (c :: cs) = some (path, body, rest)) :
    eachPass d (f + 1) (c :: cs) = eachSubst d path body ++ eachPass d f rest := by
  simp [eachPass, h]

theorem tryBlock_each_exact (p : String) (body : List Char)
    (h1 : p.data ≠ [])
    (h2 : p.data.all (fun c => !isJsWs c && c != '}') = true)
    (hcl : hasSub eachClose body = false) :
    tryBlock eachOpen eachClose
        (eachOpen ++ ' ' :: (p.data ++ '}' :: '}' :: (body ++ eachClose))) =
      some (p, body, []) := by
  have hx : p.data.all (fun c => c != '}') = true := by
    rw [List.all_eq_true] at h2 ⊢
    intro c hc
    exact (Bool.and_elim_right (h2 c hc))
  have hxs : (' ' :: p.data).all (fun c => c != '}') = true := by
    simp [List.all_cons, hx]
  have hws : p.data.all (fun c => !isJsWs c) = true := by
    rw [List.all_eq_true] at h2 ⊢
    intro c hc
    exact (Bool.and_elim_left (h2 c hc))
  have hsplit : splitAtSub eachClose (body ++ eachClose) = some (body, []) := by
    have hb := splitAtSub_boundary eachClose (by decide) (by decide) body [] hcl
    simpa using hb
  have hlen1 : 1 ≤ p.length := by
    show 1 ≤ p.data.length
    cases hpd : p.data with
    | nil => exact absurd hpd h1
    | cons a tl => simp
  have e1 : List.takeWhile (fun c => c != '}')
      (' ' :: (p.data ++ '}' :: '}' :: (body ++ eachClose))) = ' ' :: p.data := by
    rw [show (' ' :: (p.data ++ '}' :: '}' :: (body ++ eachClose))) =
      ((' ' :: p.data) ++ '}' :: '}' :: (body ++ eachClose)) from rfl]
    exact takeWhile_all_append _ _ _ _ hxs (by decide)
  have e2 : List.drop (' ' :: p.data).length
      (' ' :: (p.data ++ '}' :: '}' :: (body ++ eachClose))) =
      '}' :: '}' :: (body ++ eachClose) := by
    rw [show (' ' :: (p.data ++ '}' :: '}' :: (body ++ eachClose))) =
      ((' ' :: p.data) ++ '}' :: '}' :: (body ++ eachClose)) from rfl]
    exact List.drop_left _ _
  have e3 : leadsWith ['}', '}'] ('}' :: '}' :: (body ++ eachClose)) = true := rfl
  have e4 : List.drop 2 ('}' :: '}' :: (body ++ eachClose)) = body ++ eachClose := rfl
  have e5 : String.mk p.data = p := rfl
  unfold tryBlock
  rw [if_pos (leadsWith_append_self eachOpen _)]
  simp only [List.drop_left, e1, e2, e3, e4]
  rw [if_pos (by simp [isJsWs, hlen1])]
  simp only [if_true, hsplit, trimWs_space _ hws, e5]

theorem digitChar_noBrace (m : Nat) : (m.digitChar != '{') = true := by
  by_cases h0 : m = 0
  · subst h0; decide
  by_cases h1 : m = 1
  · subst h1; decide
  by_cases h2 : m = 2
  · subst h2; decide
  by_cases h3 : m = 3
  · subst h3; decide
  by_cases h4 : m = 4
  · subst h4; decide
  by_cases h5 : m = 5
  · subst h5; decide
  by_cases h6 : m = 6
  · subst h6; decide
  by_cases h7 : m = 7
  · subst h7; decide
  by_cases h8 : m = 8
  · subst h8; decide
  by_cases h9 : m = 9
  · subst h9; decide
  by_cases h10 : m = 10
  · subst h10; decide
  by_cases h11 : m = 11
  · subst h11; decide
  by_cases h12 : m = 12
  · subst h12; decide
  by_cases h13 : m = 13
  · subst h13; decide
  by_cases h14 : m = 14
  · subst h14; decide
  by_cases h15 : m = 15
  · subst h15; decide
  simp [Nat.digitChar, h0, h1, h2, h3, h4, h5, h6, h7, h8, h9, h10, h11, h12,
    h13, h14, h15]

theorem toDigitsCore_noBrace (fuel : Nat) : ∀ (n : Nat) (acc : List Char),
    acc.all (fun c => c != '{') = true →
    (Nat.toDigitsCore 10 fuel n acc).all (fun c => c != '{') = true := by
  induction fuel with
  | zero => intro n acc h; exact h
  | succ f ih =>
    intro n acc h
    unfold Nat.toDigitsCore
    show ((if n / 10 = 0 then (n % 10).digitChar :: acc
           else Nat.toDigitsCore 10 f (n / 10) ((n % 10).digitChar :: acc)).all
        (fun c => c != '{')) = true
    split
    · simp [List.all_cons, digitChar_noBrace, h]
    · exact ih _ _ (by simp [List.all_cons, digitChar_noBrace, h])

theorem toString_nat_noBrace (n : Nat) :
    (toString n).data.all (fun c => c != '{') = true := by
  show (Nat.toDigitsCore 10 (n + 1) n []).all (fun c => c != '{') = true
  exact toDigitsCore_noBrace (n + 1) n [] rfl

theorem renderTemplate_passes (T : String) (d : Value) :
    renderTemplate T d =
      String.mk (varPass d
        ((elsePass ((eachPass d ((ifPass d (T.data.length + 1) T.data).length + 1)
              (ifPass d (T.data.length + 1) T.data)).length + 1)
            (eachPass d ((ifPass d (T.data.length + 1) T.data).length + 1)
              (ifPass d (T.data.length + 1) T.data))).length + 1)
        (elsePass ((eachPass d ((ifPass d (T.data.length + 1) T.data).length + 1)
              (ifPass d (T.data.length + 1) T.data)).length + 1)
          (eachPass d ((ifPass d (T.data.length + 1) T.data).length + 1)
            (ifPass d (T.data.length + 1) T.data)))) := rfl

/-- C5 (amended): the spec's concrete example renders as claimed; for every
iteration block `\x7b\x7b#each p\x7d\x7dbody\x7b\x7b/each\x7d\x7d` — path non-empty without
whitespace or `}` characters, no `\x7b\x7b#if` in the template and no `\x7b\x7b/each\x7d\x7d`
inside the body, and per-element renderings free of brace characters (the
counterexample shows later passes re-scan substituted text otherwise) — an
array lookup renders the block as the concatenation, in array order, of the
body rendered once per element, and a non-array lookup renders it as the
empty string; in each per-element rendering `\x7b\x7b@index\x7d\x7d` becomes
position + 1 for every position, `\x7b\x7bthis\x7d\x7d` the element's string form for
every element value, and a `\x7b\x7b<subpath>\x7d\x7d` token resolves against the
element — not the outer data — with falsy results collapsing to empty. -/
theorem C5_each_block (p : String) (body : List Char) (d : Value)
    (items : List Value) (d2 : Value)
    (h1 : p.data ≠ [])
    (h2 : p.data.all (fun c => !isJsWs c && c != '}') = true)
    (hIf : hasSub ifOpen
      (eachOpen ++ ' ' :: (p.data ++ '}' :: '}' :: (body ++ eachClose))) = false)
    (hcl : hasSub eachClose body = false)
    (harr : getValueByPath d p = Value.arr items)
    (hE : (renderEachList body items 0).all (fun c => c != '{') = true)
    (hna : (getValueByPath d2 p).isArr = false) :
    renderTemplate
        "\x7b\x7b#each items\x7d\x7d\x7b\x7b@index\x7d\x7d:\x7b\x7bthis\x7d\x7d\n\x7b\x7b/each\x7d\x7d"
        (Value.obj [("items", Value.arr [Value.str "x", Value.str "y"])]) =
      "1:x\n2:y\n" ∧
    renderTemplate
        (String.mk (eachOpen ++ ' ' :: (p.data ++ '}' :: '}' :: (body ++ eachClose)))) d =
      String.mk (renderEachList body items 0) ∧
    renderTemplate
        (String.mk (eachOpen ++ ' ' :: (p.data ++ '}' :: '}' :: (body ++ eachClose)))) d2 =
      "" ∧
    (∀ (i : Nat) (item : Value),
      renderEachItem ('{' :: '{' :: '@' :: 'i' :: 'n' :: 'd' :: 'e' :: 'x' :: '}' :: '}' :: []) i item =
        (toString (i + 1)).data) ∧
    (∀ (i : Nat) (item : Value),
      renderEachItem ('{' :: '{' :: 't' :: 'h' :: 'i' :: 's' :: '}' :: '}' :: []) i item =
        (jsToString item).data) ∧
    (∀ (i : Nat) (item : Value),
      renderEachItem ('{' :: '{' :: 'q' :: '}' :: '}' :: []) i item =
        (if truthy (getValueByPath item "q") then
          jsToString (getValueByPath item "q") else "").data) := by
  refine ⟨by decide, ?_, ?_, ?_, ?_, ?_⟩
  · have hTd : (String.mk
        (eachOpen ++ ' ' :: (p.data ++ '}' :: '}' :: (body ++ eachClose)))).data =
        eachOpen ++ ' ' :: (p.data ++ '}' :: '}' :: (body ++ eachClose)) := rfl
    rw [renderTemplate_passes, hTd]
    rw [ifPass_id d _ _ hIf]
    have hb : eachPass d
        ((eachOpen ++ ' ' :: (p.data ++ '}' :: '}' :: (body ++ eachClose))).length + 1)
        (eachOpen ++ ' ' :: (p.data ++ '}' :: '}' :: (body ++ eachClose))) =
        eachSubst d p body ++ eachPass d
          (eachOpen ++ ' ' :: (p.data ++ '}' :: '}' :: (body ++ eachClose))).length [] :=
      eachPass_block d _ '{' _ p body [] (tryBlock_each_exact p body h1 h2 hcl)
    rw [hb, eachPass_nil]
    have hes : eachSubst d p body = renderEachList body items 0 := by
      unfold eachSubst
      rw [harr]
    rw [hes]
    have hall : (renderEachList body items 0 ++ ([] : List Char)).all
        (fun c => c != '{') = true := by simpa using hE
    rw [elsePass_id _ _ hall, varPass_id _ _ _ hall, List.append_nil]
  · have hTd : (String.mk
        (eachOpen ++ ' ' :: (p.data ++ '}' :: '}' :: (body ++ eachClose)))).data =
        eachOpen ++ ' ' :: (p.data ++ '}' :: '}' :: (body ++ eachClose)) := rfl
    rw [renderTemplate_passes, hTd]
    rw [ifPass_id d2 _ _ hIf]
    have hb : eachPass d2
        ((eachOpen ++ ' ' :: (p.data ++ '}' :: '}' :: (body ++ eachClose))).length + 1)
        (eachOpen ++ ' ' :: (p.data ++ '}' :: '}' :: (body ++ eachClose))) =
        eachSubst d2 p body ++ eachPass d2
          (eachOpen ++ ' ' :: (p.data ++ '}' :: '}' :: (body ++ eachClose))).length [] :=
      eachPass_block d2 _ '{' _ p body [] (tryBlock_each_exact p body h1 h2 hcl)
    rw [hb, eachPass_nil]
    have hes : eachSubst d2 p body = [] := by
      unfold eachSubst
      split
      · rename_i items' heq
        rw [heq] at hna
        simp [Value.isArr] at hna
      · rfl
    rw [hes]
    rfl
  · intro i item
    have h0 : renderEachItem
        ('{' :: '{' :: '@' :: 'i' :: 'n' :: 'd' :: 'e' :: 'x' :: '}' :: '}' :: []) i item =
        propReplace item (((toString (i + 1)).data ++ []).length + 1)
          ((toString (i + 1)).data ++ []) := rfl
    rw [h0, List.append_nil]
    exact propReplace_id item _ _ (toString_nat_noBrace (i + 1))
  · intro i item
    have h0 : renderEachItem
        ('{' :: '{' :: 't' :: 'h' :: 'i' :: 's' :: '}' :: '}' :: []) i item =
        (jsToString item).data ++ [] := rfl
    rw [h0, List.append_nil]
  · intro i item
    have h0 : renderEachItem ('{' :: '{' :: 'q' :: '}' :: '}' :: []) i item =
        (if truthy (getValueByPath item "q") then
          jsToString (getValueByPath item "q") else "").data ++ [] := rfl
    rw [h0, List.append_nil]

/-- C5 witness at path `items`, the spec example body, elements `"x"`, `"y"`,
non-array data `\x7b\x7d`, and concrete per-element instances. -/
theorem C5_each_block_witness :
    ("items" : String).data ≠ [] ∧
    ("items" : String).data.all (fun c => !isJsWs c && c != '}') = true ∧
    hasSub ifOpen (eachOpen ++ ' ' :: (("items" : String).data ++ '}' :: '}' ::
      (("\x7b\x7b@index\x7d\x7d:\x7b\x7bthis\x7d\x7d\n" : String).data ++ eachClose))) = false ∧
    hasSub eachClose ("\x7b\x7b@index\x7d\x7d:\x7b\x7bthis\x7d\x7d\n" : String).data = false ∧
    getValueByPath (Value.obj [("items", Value.arr [Value.str "x", Value.str "y"])])
      "items" = Value.arr [Value.str "x", Value.str "y"] ∧
    (renderEachList ("\x7b\x7b@index\x7d\x7d:\x7b\x7bthis\x7d\x7d\n" : String).data
      [Value.str "x", Value.str "y"] 0).all (fun c => c != '{') = true ∧
    (getValueByPath (Value.obj []) "items").isArr = false ∧
    renderTemplate
        "\x7b\x7b#each items\x7d\x7d\x7b\x7b@index\x7d\x7d:\x7b\x7bthis\x7d\x7d\n\x7b\x7b/each\x7d\x7d"
        (Value.obj [("items", Value.arr [Value.str "x", Value.str "y"])]) =
      "1:x\n2:y\n" ∧
    renderTemplate
        (String.mk (eachOpen ++ ' ' :: (("items" : String).data ++ '}' :: '}' ::
          (("\x7b\x7b@index\x7d\x7d:\x7b\x7bthis\x7d\x7d\n" : String).data ++ eachClose))))
        (Value.obj [("items", Value.arr [Value.str "x", Value.str "y"])]) =
      String.mk (renderEachList ("\x7b\x7b@index\x7d\x7d:\x7b\x7bthis\x7d\x7d\n" : String).data
        [Value.str "x", Value.str "y"] 0) ∧
    renderTemplate
        (String.mk (eachOpen ++ ' ' :: (("items" : String).data ++ '}' :: '}' ::
          (("\x7b\x7b@index\x7d\x7d:\x7b\x7bthis\x7d\x7d\n" : String).data ++ eachClose))))
        (Value.obj []) = "" ∧
    renderEachItem ('{' :: '{' :: '@' :: 'i' :: 'n' :: 'd' :: 'e' :: 'x' :: '}' :: '}' :: [])
      41 (Value.num 7) = (toString 42).data ∧
    renderEachItem ('{' :: '{' :: 't' :: 'h' :: 'i' :: 's' :: '}' :: '}' :: [])
      3 (Value.num 5) = (jsToString (Value.num 5)).data ∧
    renderEachItem ('{' :: '{' :: 'q' :: '}' :: '}' :: [])
      0 (Value.obj [("q", Value.str "deep")]) =
      (if truthy (getValueByPath (Value.obj [("q", Value.str "deep")]) "q") then
        jsToString (getValueByPath (Value.obj [("q", Value.str "deep")]) "q")
       else "").data := by
  have h := C5_each_block "items"
    ("\x7b\x7b@index\x7d\x7d:\x7b\x7bthis\x7d\x7d\n" : String).data
    (Value.obj [("items", Value.arr [Value.str "x", Value.str "y"])])
    [Value.str "x", Value.str "y"] (Value.obj [])
    (by decide) (by decide) (by decide) (by decide) rfl (by decide) (by decide)
  exact ⟨by decide, by decide, by decide, by decide, rfl, by decide, by decide,
    h.1, h.2.1, h.2.2.1, h.2.2.2.1 41 (Value.num 7), h.2.2.2.2.1 3 (Value.num 5),
    h.2.2.2.2.2 0 (Value.obj [("q", Value.str "deep")])⟩

theorem enumFromN_map_snd {α : Type} (n : Nat) (l : List α) :
    (enumFromN n l).map Prod.snd = l := by
  induction l generalizing n with
  | nil => rfl
  | cons x tl ih => simp [enumFromN, ih]

theorem jsObjSet_append (m : List (String × NavEntry)) (k : String) (v : NavEntry)
    (h : ∀ p ∈ m, p.1 ≠ k) : jsObjSet m k v = m ++ [(k, v)] := by
  induction m with
  | nil => rfl
  | cons x tl ih =>
    have hx : x.1 ≠ k := h x (List.mem_cons_self x tl)
    have hb : (x.1 == k) = false := by
      cases hbe : x.1 == k with
      | true => exact absurd (eq_of_beq hbe) hx
      | false => rfl
    obtain ⟨k0, v0⟩ := x
    simp only [jsObjSet, hb, Bool.false_eq_true, if_false]
    rw [ih (fun p hp => h p (List.mem_cons_of_mem _ hp))]
    rfl

theorem cleanPath_roundtrip (k : String) : cleanPath ("/" ++ k ++ ".html") = k := by
  have hd : ("/" ++ k ++ ".html").data = '/' :: (k.data ++ ['.', 'h', 't', 'm', 'l']) := by
    rw [String.data_append, String.data_append]
    show (['/'] ++ k.data) ++ ['.', 'h', 't', 'm', 'l'] = _
    simp
  unfold cleanPath
  rw [hd]
  show (match (k.data ++ ['.', 'h', 't', 'm', 'l']).reverse with
    | 'l' :: 'm' :: 't' :: 'h' :: '.' :: tl => String.mk tl.reverse
    | _ => String.mk (k.data ++ ['.', 'h', 't', 'm', 'l'])) = k
  rw [List.reverse_append]
  show String.mk k.data.reverse.reverse = k
  rw [List.reverse_reverse]


theorem buildNavGo_fresh (config : Value) (order : List String) :
    ∀ (ps : List (Nat × String)) (acc : List (String × NavEntry)),
    (∀ q ∈ ps, ∀ p ∈ acc, p.1 ≠ q.2) → (ps.map Prod.snd).Nodup →
    buildNavGo config order ps acc =
      (navEntriesSpec config order ps).map (fun es => acc ++ es) := by
  intro ps
  induction ps with
  | nil => intro acc _ _; simp [buildNavGo, navEntriesSpec, Except.map]
  | cons q tl ih =>
    intro acc hfresh hnd
    obtain ⟨i, k⟩ := q
    cases hnav : navEntryAt config order i with
    | error e => simp [buildNavGo, navEntriesSpec, hnav, Except.map]
    | ok e =>
      have hkacc : ∀ p ∈ acc, p.1 ≠ k :=
        fun p hp => hfresh (i, k) (List.mem_cons_self _ _) p hp
      have hset : jsObjSet acc k e = acc ++ [(k, e)] := jsObjSet_append acc k e hkacc
      have hknotl : ∀ q' ∈ tl, q'.2 ≠ k := by
        intro q' hq' heq
        have : k ∈ tl.map Prod.snd := by
          rw [← heq]; exact List.mem_map_of_mem Prod.snd hq'
        simp only [List.map_cons, List.nodup_cons] at hnd
        exact hnd.1 this
      have hfresh' : ∀ q' ∈ tl, ∀ p ∈ acc ++ [(k, e)], p.1 ≠ q'.2 := by
        intro q' hq' p hp
        rcases List.mem_append.mp hp with hpa | hpk
        · exact hfresh q' (List.mem_cons_of_mem _ hq') p hpa
        · rcases List.mem_singleton.mp hpk with rfl
          exact fun hc => hknotl q' hq' (by rw [← hc])
      have hnd' : (tl.map Prod.snd).Nodup := by
        simp only [List.map_cons, List.nodup_cons] at hnd
        exact hnd.2
      show buildNavGo config order ((i, k) :: tl) acc = _
      rw [show buildNavGo config order ((i, k) :: tl) acc =
        (match navEntryAt config order i with
          | .error e => .error e
          | .ok e => buildNavGo config order tl (jsObjSet acc k e)) from rfl, hnav]
      show buildNavGo config order tl (jsObjSet acc k e) = _
      rw [hset, ih (acc ++ [(k, e)]) hfresh' hnd']
      cases hspec : navEntriesSpec config order tl with
      | error er => simp [navEntriesSpec, hnav, hspec, Except.map]
      | ok rest => simp [navEntriesSpec, hnav, hspec, Except.map]

theorem navEntriesSpec_ok (config : Value) (order : List String) :
    ∀ (ks : List String) (start : Nat) (es : List (String × NavEntry)),
    navEntriesSpec config order (enumFromN start ks) = .ok es →
    es.length = ks.length ∧
    ∀ j k, ks[j]? = some k →
      ∃ e, navEntryAt config order (start + j) = .ok e ∧ es[j]? = some (k, e) := by
  intro ks
  induction ks with
  | nil =>
    intro start es h
    simp only [enumFromN, navEntriesSpec] at h
    cases h
    simp
  | cons k0 ktl ih =>
    intro start es h
    simp only [enumFromN, navEntriesSpec] at h
    cases hnav : navEntryAt config order start with
    | error e => rw [hnav] at h; cases h
    | ok e0 =>
      rw [hnav] at h
      cases hspec : navEntriesSpec config order (enumFromN (start + 1) ktl) with
      | error er => rw [hspec] at h; cases h
      | ok rest =>
        rw [hspec] at h
        cases h
        obtain ⟨hlen, hidx⟩ := ih (start + 1) rest hspec
        constructor
        · simp [hlen]
        · intro j k hk
          cases j with
          | zero =>
            simp only [List.getElem?_cons_zero, Option.some_inj] at hk
            subst hk
            exact ⟨e0, by simpa using hnav, by simp⟩
          | succ j' =>
            simp only [List.getElem?_cons_succ] at hk
            obtain ⟨e, hnav', hes⟩ := hidx j' k hk
            refine ⟨e, ?_, by simpa using hes⟩
            have : start + (j' + 1) = start + 1 + j' := by omega
            rw [this]
            exact hnav'


theorem navEntryAt_ok (config : Value) (order : List String) (i : Nat) (e : NavEntry)
    (hi : i < order.length) (hne : ∀ k ∈ order, k ≠ "")
    (hok : navEntryAt config order i = .ok e) :
    e.index = i ∧ e.total = order.length ∧
    (e.previous = none ↔ i = 0) ∧ (e.next = none ↔ i + 1 = order.length) := by
  rw [navEntryAt] at hok
  cases hprev : navNeighbor config (if 0 < i then order[i-1]? else none) with
  | error er => rw [hprev] at hok; cases hok
  | ok p =>
    rw [hprev] at hok
    cases hnext : navNeighbor config
        (if i + 1 < order.length then order[i+1]? else none) with
    | error er => rw [hnext] at hok; cases hok
    | ok q =>
      rw [hnext] at hok
      cases hok
      refine ⟨rfl, rfl, ?_, ?_⟩
      · show p = none ↔ i = 0
        constructor
        · intro hp
          by_contra hi0
          have h0 : 0 < i := Nat.pos_of_ne_zero hi0
          have hlt : i - 1 < order.length := by omega
          rw [if_pos h0, List.getElem?_eq_getElem hlt] at hprev
          have hk : order[i-1] ≠ "" := hne _ (List.getElem_mem hlt)
          have hkb : (order[i-1] == "") = false := by
            cases hb : order[i-1] == "" with
            | true => exact absurd (eq_of_beq hb) hk
            | false => rfl
          rw [navNeighbor] at hprev
          rw [hkb] at hprev
          simp only [Bool.false_eq_true, if_false] at hprev
          cases hg : getPageTitle config order[i-1] with
          | error er => rw [hg] at hprev; cases hprev
          | ok t =>
            rw [hg] at hprev
            cases hprev
            exact Option.noConfusion hp
        · intro hi0
          subst hi0
          rw [if_neg (by omega)] at hprev
          rw [navNeighbor] at hprev
          cases hprev
          rfl
      · show q = none ↔ i + 1 = order.length
        constructor
        · intro hq
          by_contra hiN
          have hlt2 : i + 1 < order.length := by omega
          rw [if_pos hlt2, List.getElem?_eq_getElem hlt2] at hnext
          have hk : order[i+1] ≠ "" := hne _ (List.getElem_mem hlt2)
          have hkb : (order[i+1] == "") = false := by
            cases hb : order[i+1] == "" with
            | true => exact absurd (eq_of_beq hb) hk
            | false => rfl
          rw [navNeighbor] at hnext
          rw [hkb] at hnext
          simp only [Bool.false_eq_true, if_false] at hnext
          cases hg : getPageTitle config order[i+1] with
          | error er => rw [hg] at hnext; cases hnext
          | ok t =>
            rw [hg] at hnext
            cases hnext
            exact Option.noConfusion hq
        · intro hiN
          rw [if_neg (by omega)] at hnext
          rw [navNeighbor] at hnext
          cases hnext
          rfl

theorem navEntryAt_ok_next (config : Value) (order : List String) (i : Nat)
    (e : NavEntry) (hlt2 : i + 1 < order.length)
    (hne : ∀ k ∈ order, k ≠ "")
    (hok : navEntryAt config order i = .ok e) :
    ∃ t, e.next = some ("/" ++ order[i+1] ++ ".html", t) := by
  rw [navEntryAt] at hok
  cases hprev : navNeighbor config (if 0 < i then order[i-1]? else none) with
  | error er => rw [hprev] at hok; cases hok
  | ok p =>
    rw [hprev] at hok
    cases hnext : navNeighbor config
        (if i + 1 < order.length then order[i+1]? else none) with
    | error er => rw [hnext] at hok; cases hok
    | ok q =>
      rw [hnext] at hok
      cases hok
      rw [if_pos hlt2, List.getElem?_eq_getElem hlt2] at hnext
      have hk : order[i+1] ≠ "" := hne _ (List.getElem_mem hlt2)
      have hkb : (order[i+1] == "") = false := by
        cases hb : order[i+1] == "" with
        | true => exact absurd (eq_of_beq hb) hk
        | false => rfl
      rw [navNeighbor] at hnext
      rw [hkb] at hnext
      simp only [Bool.false_eq_true, if_false] at hnext
      cases hg : getPageTitle config order[i+1] with
      | error er => rw [hg] at hnext; cases hnext
      | ok t =>
        rw [hg] at hnext
        cases hnext
        exact ⟨t, rfl⟩


theorem lookupKey_of_nodup (m : List (String × NavEntry))
    (hnd : (m.map Prod.fst).Nodup) :
    ∀ j (hj : j < m.length), lookupKey m (m.get ⟨j, hj⟩).1 = some (m.get ⟨j, hj⟩).2 := by
  induction m with
  | nil => intro j hj; simp at hj
  | cons x tl ih =>
    intro j hj
    cases j with
    | zero =>
      obtain ⟨k0, v0⟩ := x
      simp [lookupKey]
    | succ j' =>
      obtain ⟨k0, v0⟩ := x
      have hj' : j' < tl.length := by simpa using hj
      have hmem : (tl.get ⟨j', hj'⟩).1 ∈ tl.map Prod.fst :=
        List.mem_map_of_mem Prod.fst (tl.get_mem _ _)
      simp only [List.map_cons, List.nodup_cons] at hnd
      have hk0 : k0 ≠ (tl.get ⟨j', hj'⟩).1 := by
        intro hc
        exact hnd.1 (hc ▸ hmem)
      have hkb : (k0 == (tl.get ⟨j', hj'⟩).1) = false := by
        cases hb : k0 == (tl.get ⟨j', hj'⟩).1 with
        | true => exact absurd (eq_of_beq hb) hk0
        | false => rfl
      show lookupKey ((k0, v0) :: tl) (((k0, v0) :: tl).get ⟨j' + 1, hj⟩).1 = _
      rw [List.get_cons_succ]
      simp only [lookupKey, hkb, Bool.false_eq_true, if_false]
      exact ih hnd.2 j' hj'

theorem countP_eq_one_of_unique (p : (String × NavEntry) → Bool) :
    ∀ (l : List (String × NavEntry)) (j0 : Nat), j0 < l.length →
    (∀ j (hj : j < l.length), (p (l.get ⟨j, hj⟩) = true ↔ j = j0)) →
    l.countP p = 1 := by
  intro l
  induction l with
  | nil => intro j0 hj0 _; simp at hj0
  | cons x tl ih =>
    intro j0 hj0 h
    cases j0 with
    | zero =>
      have hx : p x = true := (h 0 (by simp)).mpr rfl
      have htl : tl.countP p = 0 := by
        rw [List.countP_eq_zero]
        intro a ha
        obtain ⟨⟨jt, hjt⟩, rfl⟩ := List.mem_iff_get.mp ha
        intro hp
        have h1 := (h (jt + 1) (by simpa using Nat.succ_lt_succ hjt)).mp
          (by rwa [List.get_cons_succ])
        omega
      rw [List.countP_cons_of_pos _ _ hx, htl]
    | succ j0' =>
      have hx : p x = false := by
        cases hp : p x with
        | false => rfl
        | true =>
          have := (h 0 (by simp)).mp hp
          omega
      rw [List.countP_cons_of_neg _ _ (by simp [hx])]
      refine ih j0' (by simpa using hj0) ?_
      intro j hj
      have := h (j + 1) (by simpa using Nat.succ_lt_succ hj)
      rw [List.get_cons_succ] at this
      rw [this]
      omega

theorem walkNext_drop (m : List (String × NavEntry)) (order : List String)
    (hmap : ∀ i (hi : i < order.length), ∃ e,
      lookupKey m (order.get ⟨i, hi⟩) = some e ∧
      (i + 1 = order.length → e.next = none) ∧
      (∀ hn : i + 1 < order.length,
        ∃ t, e.next = some ("/" ++ order.get ⟨i + 1, hn⟩ ++ ".html", t))) :
    ∀ (fuel j : Nat) (hj : j < order.length), fuel = order.length - j →
      walkNext m fuel (order.get ⟨j, hj⟩) = order.drop j := by
  intro fuel
  induction fuel generalizing m order with
  | zero => intro j hj hf; omega
  | succ f ih =>
    intro j hj hf
    obtain ⟨e, hlk, hlast, hmid⟩ := hmap j hj
    rw [walkNext, hlk]
    show (order.get ⟨j, hj⟩ :: (match e.next with
      | some pt => walkNext m f (cleanPath pt.1)
      | none => [])) = order.drop j
    by_cases hj1 : j + 1 < order.length
    · obtain ⟨t, hnext⟩ := hmid hj1
      rw [hnext]
      show (order.get ⟨j, hj⟩ ::
        walkNext m f (cleanPath ("/" ++ order.get ⟨j + 1, hj1⟩ ++ ".html"))) =
          order.drop j
      rw [cleanPath_roundtrip]
      rw [ih m order hmap (j + 1) hj1 (by omega)]
      rw [List.drop_eq_getElem_cons hj]
      rfl
    · have hj1e : j + 1 = order.length := by omega
      rw [hlast hj1e]
      show (order.get ⟨j, hj⟩ :: ([] : List String)) = order.drop j
      rw [List.drop_eq_getElem_cons hj]
      rw [show order.drop (j + 1) = [] from List.drop_eq_nil_of_le (by omega)]
      rfl


/-- C1 (amended): for a resolved order of pairwise-distinct non-empty
page keys, the built navigation map has exactly one entry per key in
order, each entry carrying its 0-based index and the total; the head
alone has `previous = null`, the tail alone has `next = null` (so for a
single page both are null), and following `next` pointers from the head
visits every entry exactly once, in order, before reaching null. -/
theorem C1_nav_chain_invariant (config : Value) (order : List String)
    (m : List (String × NavEntry))
    (hres : resolveNavigationOrder config = .ok order)
    (hgen : generateNavigationData config = .ok m)
    (hnd : order.Nodup) (hne : ∀ k ∈ order, k ≠ "") :
    m.map Prod.fst = order ∧
    m.length = order.length ∧
    (∀ i (hi : i < order.length), ∃ e,
      lookupKey m (order.get ⟨i, hi⟩) = some e ∧ e.index = i ∧
      e.total = order.length ∧
      (e.previous = none ↔ i = 0) ∧ (e.next = none ↔ i + 1 = order.length)) ∧
    (∀ h0 : 0 < order.length,
      walkNext m order.length (order.get ⟨0, h0⟩) = order) ∧
    (0 < order.length → m.countP (fun p => p.2.previous.isNone) = 1) ∧
    (0 < order.length → m.countP (fun p => p.2.next.isNone) = 1) := by
  have hbuild : buildNavigationData config order = .ok m := by
    rw [generateNavigationData, hres] at hgen
    exact hgen
  have hfresh : ∀ q ∈ enumFromN 0 order, ∀ p ∈ ([] : List (String × NavEntry)),
      p.1 ≠ q.2 := by simp
  have hnd2 : ((enumFromN 0 order).map Prod.snd).Nodup := by
    rw [enumFromN_map_snd]; exact hnd
  rw [buildNavigationData, buildNavGo_fresh config order (enumFromN 0 order) []
    hfresh hnd2] at hbuild
  cases hspec : navEntriesSpec config order (enumFromN 0 order) with
  | error er => rw [hspec] at hbuild; cases hbuild
  | ok es =>
    rw [hspec] at hbuild
    simp only [Except.map, List.nil_append] at hbuild
    cases hbuild
    obtain ⟨hlen, hidx⟩ := navEntriesSpec_ok config order order 0 m hspec
    have hml : m.length = order.length := hlen
    have hmj : ∀ j (hj : j < order.length), ∃ e,
        m[j]? = some (order.get ⟨j, hj⟩, e) ∧
        navEntryAt config order j = .ok e := by
      intro j hj
      obtain ⟨e, hnav, hes⟩ := hidx j _ (List.getElem?_eq_getElem hj)
      exact ⟨e, hes, by simpa using hnav⟩
    have hget : ∀ j (hj : j < order.length) (hjm : j < m.length), ∃ e,
        m.get ⟨j, hjm⟩ = (order.get ⟨j, hj⟩, e) ∧
        navEntryAt config order j = .ok e := by
      intro j hj hjm
      obtain ⟨e, hes, hnav⟩ := hmj j hj
      refine ⟨e, ?_, hnav⟩
      have h2 : m[j]? = some (m.get ⟨j, hjm⟩) := List.getElem?_eq_getElem hjm
      rw [h2] at hes
      exact Option.some.inj hes
    have hkeys : m.map Prod.fst = order := by
      apply List.ext_getElem (by simp [hml])
      intro j h1 h2
      have hjm : j < m.length := by simpa using h1
      obtain ⟨e, heq, _⟩ := hget j h2 hjm
      simp only [List.getElem_map]
      show (m.get ⟨j, hjm⟩).1 = order.get ⟨j, h2⟩
      rw [heq]
    have hndm : (m.map Prod.fst).Nodup := by rw [hkeys]; exact hnd
    have hlook : ∀ i (hi : i < order.length), ∃ e,
        lookupKey m (order.get ⟨i, hi⟩) = some e ∧
        navEntryAt config order i = .ok e := by
      intro i hi
      have him : i < m.length := by rw [hml]; exact hi
      obtain ⟨e, heq, hnav⟩ := hget i hi him
      refine ⟨e, ?_, hnav⟩
      have hl2 := lookupKey_of_nodup m hndm i him
      rw [heq] at hl2
      exact hl2
    refine ⟨hkeys, hml, ?_, ?_, ?_, ?_⟩
    · intro i hi
      obtain ⟨e, hlk, hnav⟩ := hlook i hi
      obtain ⟨h1, h2, h3, h4⟩ := navEntryAt_ok config order i e hi hne hnav
      exact ⟨e, hlk, h1, h2, h3, h4⟩
    · intro h0
      have hmapw : ∀ i (hi : i < order.length), ∃ e,
          lookupKey m (order.get ⟨i, hi⟩) = some e ∧
          (i + 1 = order.length → e.next = none) ∧
          (∀ hn : i + 1 < order.length,
            ∃ t, e.next = some ("/" ++ order.get ⟨i + 1, hn⟩ ++ ".html", t)) := by
        intro i hi
        obtain ⟨e, hlk, hnav⟩ := hlook i hi
        obtain ⟨_, _, _, h4⟩ := navEntryAt_ok config order i e hi hne hnav
        refine ⟨e, hlk, fun hh => h4.mpr hh, fun hn => ?_⟩
        exact navEntryAt_ok_next config order i e hn hne hnav
      have hw := walkNext_drop m order hmapw order.length 0 h0 (by omega)
      rw [List.drop_zero] at hw
      exact hw
    · intro h0
      refine countP_eq_one_of_unique _ m 0 (by omega) ?_
      intro j hj
      have hjo : j < order.length := by rw [← hml]; exact hj
      obtain ⟨e, heq, hnav⟩ := hget j hjo hj
      obtain ⟨_, _, h3, _⟩ := navEntryAt_ok config order j e hjo hne hnav
      rw [heq]
      show e.previous.isNone = true ↔ j = 0
      rw [Option.isNone_iff_eq_none, h3]
    · intro h0
      refine countP_eq_one_of_unique _ m (order.length - 1) (by omega) ?_
      intro j hj
      have hjo : j < order.length := by rw [← hml]; exact hj
      obtain ⟨e, heq, hnav⟩ := hget j hjo hj
      obtain ⟨_, _, _, h4⟩ := navEntryAt_ok config order j e hjo hne hnav
      rw [heq]
      show e.next.isNone = true ↔ j = order.length - 1
      rw [Option.isNone_iff_eq_none, h4]
      omega


/-- C1 witness at the sample config: order `["a", "b"]` with its
two-entry map. -/
theorem C1_nav_chain_invariant_witness :
    ([("a", (⟨none, some ("/b.html", Value.str "B"), 0, 2⟩ : NavEntry)),
      ("b", ⟨some ("/a.html", Value.str "A"), none, 1, 2⟩)].map Prod.fst =
      (["a", "b"] : List String)) ∧
    ([("a", (⟨none, some ("/b.html", Value.str "B"), 0, 2⟩ : NavEntry)),
      ("b", ⟨some ("/a.html", Value.str "A"), none, 1, 2⟩)].length =
      (["a", "b"] : List String).length) ∧
    (∀ i (hi : i < (["a", "b"] : List String).length), ∃ e,
      lookupKey [("a", (⟨none, some ("/b.html", Value.str "B"), 0, 2⟩ : NavEntry)),
          ("b", ⟨some ("/a.html", Value.str "A"), none, 1, 2⟩)]
          ((["a", "b"] : List String).get ⟨i, hi⟩) = some e ∧ e.index = i ∧
      e.total = (["a", "b"] : List String).length ∧
      (e.previous = none ↔ i = 0) ∧
      (e.next = none ↔ i + 1 = (["a", "b"] : List String).length)) ∧
    (∀ h0 : 0 < (["a", "b"] : List String).length,
      walkNext [("a", (⟨none, some ("/b.html", Value.str "B"), 0, 2⟩ : NavEntry)),
          ("b", ⟨some ("/a.html", Value.str "A"), none, 1, 2⟩)]
        (["a", "b"] : List String).length ((["a", "b"] : List String).get ⟨0, h0⟩) =
        ["a", "b"]) ∧
    (0 < (["a", "b"] : List String).length →
      ([("a", (⟨none, some ("/b.html", Value.str "B"), 0, 2⟩ : NavEntry)),
        ("b", ⟨some ("/a.html", Value.str "A"), none, 1, 2⟩)].countP
          (fun p => p.2.previous.isNone) = 1)) ∧
    (0 < (["a", "b"] : List String).length →
      ([("a", (⟨none, some ("/b.html", Value.str "B"), 0, 2⟩ : NavEntry)),
        ("b", ⟨some ("/a.html", Value.str "A"), none, 1, 2⟩)].countP
          (fun p => p.2.next.isNone) = 1)) :=
  C1_nav_chain_invariant sampleConfig ["a", "b"]
    [("a", ⟨none, some ("/b.html", Value.str "B"), 0, 2⟩),
     ("b", ⟨some ("/a.html", Value.str "A"), none, 1, 2⟩)]
    rfl rfl (by decide) (by decide)

end SMBook

